import Mathlib

/-!
Verification of the safesec keyfile service against its design document.

The development shallowly embeds the Rust sources:

* `src/network/codec.rs` — the MessagePack framing codec (`MsgPackCodec`),
  together with a byte-level model of the `rmp-serde`/`rmpv` value
  (de)serializer it delegates to (an external library, modelled from the
  MessagePack wire format; floats are carried as raw IEEE bit patterns,
  which is exactly how the codec moves them).
* `src/network/rpc/*.rs` — the RPC message layer (`Message`,
  `RequestMessage`, `NotificationMessage`, `ResponseMessage`).
* `src/protocol/message.rs` + `derive/src/lib.rs` — the protocol code
  enums and the `CodeConvert` derive.
* `src/service/state/{mod,auth,boot}.rs` — the per-connection session
  state machine and its request handlers over the abstract keyfile store.

Machine integers are modelled as `Nat`/`Int` with explicit bounds and
`% 2 ^ w` where the Rust code truncates (`as u8`, `as u32`).
Rust panics (`unwrap`, `unreachable!`, `unimplemented!`) are modelled by an
explicit `panic` outcome. Byte buffers are `List Nat` of values `< 256`.
-/

namespace Safesec

/-! ## Byte-level helpers for the MessagePack wire format -/

/-- Big-endian byte encoding of `n` in exactly `k` bytes (requires `n < 256 ^ k`). -/
def beBytes : Nat → Nat → List Nat
  | 0, _ => []
  | k + 1, n => n / 256 ^ k :: beBytes k (n % 256 ^ k)

/-- Read `k` bytes big-endian from the front of a buffer.
Returns `none` when the buffer is too short (an `UnexpectedEof` read). -/
def readBE : Nat → List Nat → Option (Nat × List Nat)
  | 0, b => some (0, b)
  | _ + 1, [] => none
  | k + 1, x :: b =>
    match readBE k b with
    | none => none
    | some (n, r) => some (x * 256 ^ k + n, r)

/-- Take exactly `k` bytes from the front of the buffer, or `none` on end of input. -/
def takeN : Nat → List Nat → Option (List Nat × List Nat)
  | 0, b => some ([], b)
  | _ + 1, [] => none
  | k + 1, x :: b =>
    match takeN k b with
    | none => none
    | some (l, r) => some (x :: l, r)

/-- Reinterpret a `bits`-wide unsigned value as a two's-complement signed integer. -/
def toSigned (bits n : Nat) : Int :=
  if n < 2 ^ (bits - 1) then (n : Int) else (n : Int) - 2 ^ bits

/-- Check whether a byte is a UTF-8 continuation byte (`0x80 ..= 0xbf`). -/
def isCont (b : Nat) : Bool :=
  decide (0x80 ≤ b ∧ b ≤ 0xbf)

/-- UTF-8 validity of a byte sequence, as checked by Rust's `str::from_utf8`
when `rmp-serde` decodes a MessagePack `str` payload. -/
def utf8Valid : List Nat → Bool
  | [] => true
  | b :: tl =>
    if b ≤ 0x7f then utf8Valid tl
    else if 0xc2 ≤ b ∧ b ≤ 0xdf then
      match tl with
      | c1 :: tl2 => isCont c1 && utf8Valid tl2
      | [] => false
    else if b = 0xe0 then
      match tl with
      | c1 :: c2 :: tl2 =>
        decide (0xa0 ≤ c1 ∧ c1 ≤ 0xbf) && isCont c2 && utf8Valid tl2
      | _ => false
    else if (0xe1 ≤ b ∧ b ≤ 0xec) ∨ b = 0xee ∨ b = 0xef then
      match tl with
      | c1 :: c2 :: tl2 => isCont c1 && isCont c2 && utf8Valid tl2
      | _ => false
    else if b = 0xed then
      match tl with
      | c1 :: c2 :: tl2 =>
        decide (0x80 ≤ c1 ∧ c1 ≤ 0x9f) && isCont c2 && utf8Valid tl2
      | _ => false
    else if b = 0xf0 then
      match tl with
      | c1 :: c2 :: c3 :: tl2 =>
        decide (0x90 ≤ c1 ∧ c1 ≤ 0xbf) && isCont c2 && isCont c3 && utf8Valid tl2
      | _ => false
    else if 0xf1 ≤ b ∧ b ≤ 0xf3 then
      match tl with
      | c1 :: c2 :: c3 :: tl2 =>
        isCont c1 && isCont c2 && isCont c3 && utf8Valid tl2
      | _ => false
    else if b = 0xf4 then
      match tl with
      | c1 :: c2 :: c3 :: tl2 =>
        decide (0x80 ≤ c1 ∧ c1 ≤ 0x8f) && isCont c2 && isCont c3 && utf8Valid tl2
      | _ => false
    else false

/-! ## The dynamic value tree (`rmpv::Value`)

The `Value` type from the `rmpv` crate: nil, booleans, 64-bit integers
(`rmpv::Integer` normalises non-negative values, so a single `Int` with the
`i64`/`u64` range bound is a faithful model of its equality), 32/64-bit
floats carried as raw bit patterns, UTF-8 strings and binary blobs as byte
lists, arrays, maps (ordered key/value lists), and the ext variant. Arrays
and maps are represented with mutually inductive list types so that all
recursive functions and proofs are structural. -/

mutual

inductive Value where
  | nil
  | bool (b : Bool)
  | int (n : Int)
  | f32 (bits : Nat)
  | f64 (bits : Nat)
  | str (data : List Nat)
  | bin (data : List Nat)
  | arr (items : VList)
  | map (entries : VPairs)
  | ext (tag : Int) (data : List Nat)

inductive VList where
  | vnil
  | vcons (hd : Value) (tl : VList)

inductive VPairs where
  | pnil
  | pcons (key val : Value) (tl : VPairs)

end

/-- Length of a `VList`. -/
def VList.length : VList → Nat
  | .vnil => 0
  | .vcons _ tl => tl.length + 1

/-- Length of a `VPairs`. -/
def VPairs.length : VPairs → Nat
  | .pnil => 0
  | .pcons _ _ tl => tl.length + 1

/-- MessagePack encoding of an integer as produced by `rmp`'s
`write_uint`/`write_sint` (the most compact representation; non-negative
values always use the unsigned formats, matching `rmpv::Integer`). -/
def encInt (n : Int) : List Nat :=
  if n < 0 then
    if -32 ≤ n then [(256 + n).toNat]
    else if -128 ≤ n then [0xd0, (256 + n).toNat]
    else if -(2 ^ 15) ≤ n then 0xd1 :: beBytes 2 (2 ^ 16 + n).toNat
    else if -(2 ^ 31) ≤ n then 0xd2 :: beBytes 4 (2 ^ 32 + n).toNat
    else 0xd3 :: beBytes 8 (2 ^ 64 + n).toNat
  else
    if n < 128 then [n.toNat]
    else if n < 256 then [0xcc, n.toNat]
    else if n < 2 ^ 16 then 0xcd :: beBytes 2 n.toNat
    else if n < 2 ^ 32 then 0xce :: beBytes 4 n.toNat
    else 0xcf :: beBytes 8 n.toNat

/-- Header bytes for a MessagePack `str` of the given payload length. -/
def strHeader (len : Nat) : List Nat :=
  if len < 32 then [0xa0 + len]
  else if len < 256 then [0xd9, len]
  else if len < 2 ^ 16 then 0xda :: beBytes 2 len
  else 0xdb :: beBytes 4 len

/-- Header bytes for a MessagePack `bin` of the given payload length. -/
def binHeader (len : Nat) : List Nat :=
  if len < 256 then [0xc4, len]
  else if len < 2 ^ 16 then 0xc5 :: beBytes 2 len
  else 0xc6 :: beBytes 4 len

/-- Header bytes for a MessagePack array of the given element count. -/
def arrHeader (len : Nat) : List Nat :=
  if len < 16 then [0x90 + len]
  else if len < 2 ^ 16 then 0xdc :: beBytes 2 len
  else 0xdd :: beBytes 4 len

/-- Header bytes for a MessagePack map of the given entry count. -/
def mapHeader (len : Nat) : List Nat :=
  if len < 16 then [0x80 + len]
  else if len < 2 ^ 16 then 0xde :: beBytes 2 len
  else 0xdf :: beBytes 4 len

/-- Header bytes for a MessagePack ext of the given payload length. -/
def extHeader (len : Nat) : List Nat :=
  if len = 1 then [0xd4]
  else if len = 2 then [0xd5]
  else if len = 4 then [0xd6]
  else if len = 8 then [0xd7]
  else if len = 16 then [0xd8]
  else if len < 256 then [0xc7, len]
  else if len < 2 ^ 16 then 0xc8 :: beBytes 2 len
  else 0xc9 :: beBytes 4 len

mutual

/-- Serialization of a `Value` into MessagePack bytes, as performed by
`Value::serialize` through `rmps::Serializer` (used by `MsgPackCodec::encode`). -/
def encodeValue : Value → List Nat
  | .nil => [0xc0]
  | .bool false => [0xc2]
  | .bool true => [0xc3]
  | .int n => encInt n
  | .f32 bits => 0xca :: beBytes 4 bits
  | .f64 bits => 0xcb :: beBytes 8 bits
  | .str d => strHeader d.length ++ d
  | .bin d => binHeader d.length ++ d
  | .arr items => arrHeader items.length ++ encodeVList items
  | .map entries => mapHeader entries.length ++ encodeVPairs entries
  | .ext tag d => extHeader d.length ++ ((256 + tag).toNat % 256) :: d

/-- Serialization of consecutive array elements. -/
def encodeVList : VList → List Nat
  | .vnil => []
  | .vcons v tl => encodeValue v ++ encodeVList tl

/-- Serialization of consecutive map entries (key then value). -/
def encodeVPairs : VPairs → List Nat
  | .pnil => []
  | .pcons k v tl => encodeValue k ++ encodeValue v ++ encodeVPairs tl

end

mutual

/-- Nesting depth of a value (containers add one level). -/
def depthV : Value → Nat
  | .arr items => depthL items + 1
  | .map entries => depthP entries + 1
  | _ => 1

/-- Maximum nesting depth over the elements of a list. -/
def depthL : VList → Nat
  | .vnil => 0
  | .vcons v tl => max (depthV v) (depthL tl)

/-- Maximum nesting depth over the entries of a map. -/
def depthP : VPairs → Nat
  | .pnil => 0
  | .pcons k v tl => max (max (depthV k) (depthV v)) (depthP tl)

end

mutual

/-- Well-formedness of a value with respect to what the real `rmpv::Value`
can hold and what the codec can serialize: integers within the
`i64`/`u64` range, float bit patterns of the right width, strings valid
UTF-8, byte payloads actual bytes, and lengths below `2 ^ 32`. The `ext`
variant is excluded: its round trip through the `serde` bridge of the
`rmp-serde` version the codec uses is not modelled. -/
def wfValue : Value → Bool
  | .nil => true
  | .bool _ => true
  | .int n => decide (-(2 ^ 63) ≤ n ∧ n < 2 ^ 64)
  | .f32 bits => decide (bits < 2 ^ 32)
  | .f64 bits => decide (bits < 2 ^ 64)
  | .str d => utf8Valid d && decide (d.length < 2 ^ 32)
  | .bin d => d.all (fun x => decide (x < 256)) && decide (d.length < 2 ^ 32)
  | .arr items => wfVList items && decide (items.length < 2 ^ 32)
  | .map entries => wfVPairs entries && decide (entries.length < 2 ^ 32)
  | .ext _ _ => false

/-- Well-formedness of all elements of an array. -/
def wfVList : VList → Bool
  | .vnil => true
  | .vcons v tl => wfValue v && wfVList tl

/-- Well-formedness of all entries of a map. -/
def wfVPairs : VPairs → Bool
  | .pnil => true
  | .pcons k v tl => wfValue k && wfValue v && wfVPairs tl

end

/-- Outcome of one `rmpv` deserialization attempt, with the byte-consumption
facts the codec depends on. `ok v rest` means one complete value was read and
`rest` is what follows it (the cursor sits right behind the value). `eofData`
is `decode::Error::InvalidDataRead(UnexpectedEof)`: a payload read ran off the
end of the buffer, during which the cursor consumed everything that was
available. `eofMarker` is `decode::Error::InvalidMarkerRead(UnexpectedEof)`:
end of input where a marker byte was expected. `bad` is any other
deserialization error (reserved marker, UTF-8 failure, and so on). -/
inductive DecRes where
  | ok (v : Value) (rest : List Nat)
  | eofData
  | eofMarker
  | bad

/-- Outcome of deserializing a fixed number of consecutive array elements. -/
inductive DecResL where
  | ok (items : VList) (rest : List Nat)
  | eofData
  | eofMarker
  | bad

/-- Outcome of deserializing a fixed number of consecutive map entries. -/
inductive DecResP where
  | ok (entries : VPairs) (rest : List Nat)
  | eofData
  | eofMarker
  | bad

/-- Deserialization of `count` consecutive array elements, where `step`
deserializes one element from the front of the buffer. -/
def deserMany (step : List Nat → DecRes) : Nat → List Nat → DecResL
  | 0, b => .ok .vnil b
  | c + 1, b =>
    match step b with
    | .ok v rest =>
      match deserMany step c rest with
      | .ok tl rest2 => .ok (.vcons v tl) rest2
      | .eofData => .eofData
      | .eofMarker => .eofMarker
      | .bad => .bad
    | .eofData => .eofData
    | .eofMarker => .eofMarker
    | .bad => .bad

/-- Deserialization of `count` consecutive map entries (key then value),
where `step` deserializes one value from the front of the buffer. -/
def deserManyP (step : List Nat → DecRes) : Nat → List Nat → DecResP
  | 0, b => .ok .pnil b
  | c + 1, b =>
    match step b with
    | .ok k rest =>
      match step rest with
      | .ok v rest2 =>
        match deserManyP step c rest2 with
        | .ok tl rest3 => .ok (.pcons k v tl) rest3
        | .eofData => .eofData
        | .eofMarker => .eofMarker
        | .bad => .bad
      | .eofData => .eofData
      | .eofMarker => .eofMarker
      | .bad => .bad
    | .eofData => .eofData
    | .eofMarker => .eofMarker
    | .bad => .bad

/-- One `Value::deserialize` step of the `rmp-serde` deserializer, reading a
single MessagePack value from the front of the buffer. `step` decodes a
nested value; `deser` ties the knot below with a fuel bound on nesting depth
that the codec always makes sufficient (one container header byte per level),
so the `bad` fuel case is unreachable from `MsgPackCodec.decode`. Ext markers
are mapped to `bad`:
ext decoding through the `serde` bridge is not modelled. -/
def deserStep (step : List Nat → DecRes) (m : Nat) (rest : List Nat) : DecRes :=
      if m < 0x80 then .ok (.int m) rest
      else if m < 0x90 then
        match deserManyP step (m - 0x80) rest with
        | .ok entries r => .ok (.map entries) r
        | .eofData => .eofData
        | .eofMarker => .eofMarker
        | .bad => .bad
      else if m < 0xa0 then
        match deserMany step (m - 0x90) rest with
        | .ok items r => .ok (.arr items) r
        | .eofData => .eofData
        | .eofMarker => .eofMarker
        | .bad => .bad
      else if m < 0xc0 then
        match takeN (m - 0xa0) rest with
        | none => .eofData
        | some (d, r) => if utf8Valid d then .ok (.str d) r else .bad
      else if m = 0xc0 then .ok .nil rest
      else if m = 0xc1 then .bad
      else if m = 0xc2 then .ok (.bool false) rest
      else if m = 0xc3 then .ok (.bool true) rest
      else if m = 0xc4 then
        match readBE 1 rest with
        | none => .eofData
        | some (len, r) =>
          match takeN len r with
          | none => .eofData
          | some (d, r2) => .ok (.bin d) r2
      else if m = 0xc5 then
        match readBE 2 rest with
        | none => .eofData
        | some (len, r) =>
          match takeN len r with
          | none => .eofData
          | some (d, r2) => .ok (.bin d) r2
      else if m = 0xc6 then
        match readBE 4 rest with
        | none => .eofData
        | some (len, r) =>
          match takeN len r with
          | none => .eofData
          | some (d, r2) => .ok (.bin d) r2
      else if m < 0xca then .bad
      else if m = 0xca then
        match readBE 4 rest with
        | none => .eofData
        | some (bits, r) => .ok (.f32 bits) r
      else if m = 0xcb then
        match readBE 8 rest with
        | none => .eofData
        | some (bits, r) => .ok (.f64 bits) r
      else if m = 0xcc then
        match readBE 1 rest with
        | none => .eofData
        | some (n, r) => .ok (.int n) r
      else if m = 0xcd then
        match readBE 2 rest with
        | none => .eofData
        | some (n, r) => .ok (.int n) r
      else if m = 0xce then
        match readBE 4 rest with
        | none => .eofData
        | some (n, r) => .ok (.int n) r
      else if m = 0xcf then
        match readBE 8 rest with
        | none => .eofData
        | some (n, r) => .ok (.int n) r
      else if m = 0xd0 then
        match readBE 1 rest with
        | none => .eofData
        | some (n, r) => .ok (.int (toSigned 8 n)) r
      else if m = 0xd1 then
        match readBE 2 rest with
        | none => .eofData
        | some (n, r) => .ok (.int (toSigned 16 n)) r
      else if m = 0xd2 then
        match readBE 4 rest with
        | none => .eofData
        | some (n, r) => .ok (.int (toSigned 32 n)) r
      else if m = 0xd3 then
        match readBE 8 rest with
        | none => .eofData
        | some (n, r) => .ok (.int (toSigned 64 n)) r
      else if m < 0xd9 then .bad
      else if m = 0xd9 then
        match readBE 1 rest with
        | none => .eofData
        | some (len, r) =>
          match takeN len r with
          | none => .eofData
          | some (d, r2) => if utf8Valid d then .ok (.str d) r2 else .bad
      else if m = 0xda then
        match readBE 2 rest with
        | none => .eofData
        | some (len, r) =>
          match takeN len r with
          | none => .eofData
          | some (d, r2) => if utf8Valid d then .ok (.str d) r2 else .bad
      else if m = 0xdb then
        match readBE 4 rest with
        | none => .eofData
        | some (len, r) =>
          match takeN len r with
          | none => .eofData
          | some (d, r2) => if utf8Valid d then .ok (.str d) r2 else .bad
      else if m = 0xdc then
        match readBE 2 rest with
        | none => .eofData
        | some (len, r) =>
          match deserMany step len r with
          | .ok items r2 => .ok (.arr items) r2
          | .eofData => .eofData
          | .eofMarker => .eofMarker
          | .bad => .bad
      else if m = 0xdd then
        match readBE 4 rest with
        | none => .eofData
        | some (len, r) =>
          match deserMany step len r with
          | .ok items r2 => .ok (.arr items) r2
          | .eofData => .eofData
          | .eofMarker => .eofMarker
          | .bad => .bad
      else if m = 0xde then
        match readBE 2 rest with
        | none => .eofData
        | some (len, r) =>
          match deserManyP step len r with
          | .ok entries r2 => .ok (.map entries) r2
          | .eofData => .eofData
          | .eofMarker => .eofMarker
          | .bad => .bad
      else if m = 0xdf then
        match readBE 4 rest with
        | none => .eofData
        | some (len, r) =>
          match deserManyP step len r with
          | .ok entries r2 => .ok (.map entries) r2
          | .eofData => .eofData
          | .eofMarker => .eofMarker
          | .bad => .bad
      else if m ≤ 0xff then .ok (.int ((m : Int) - 256)) rest
      else .bad

/-- Recursive knot of the deserializer: at each nesting level one fuel unit
is spent, and container payloads are decoded with `deser f`. -/
def deser : Nat → List Nat → DecRes
  | _, [] => .eofMarker
  | 0, _ :: _ => .bad
  | f + 1, m :: rest => deserStep (deser f) m rest

/-- Outcome of `MsgPackCodec::decode`: `ok frame buf` is `Ok(frame)` with the
buffer contents after the call (the Rust code mutates `buf` in place);
`ioError` is `Err(io::Error)`. -/
inductive CodecOut where
  | ok (frame : Option Value) (buf : List Nat)
  | ioError

/-- The decoder of `MsgPackCodec` (`src/network/codec.rs`). An empty buffer
asks for more data. Otherwise one deserialization attempt is made from byte 0
and `buf.split_to(curpos)` discards the bytes the deserializer's cursor
consumed — unconditionally, before the result is inspected. On success the
cursor sits behind the value, so the remainder survives; on an `UnexpectedEof`
during a payload read (`eofData`) the cursor has consumed the whole buffer,
the bytes are discarded all the same, and `Ok(None)` is returned; an
`UnexpectedEof` on a marker read and every other error become `Err`. -/
def MsgPackCodec.decode (buf : List Nat) : CodecOut :=
  if buf = [] then .ok none buf
  else
    match deser buf.length buf with
    | .ok v rest => .ok (some v) rest
    | .eofData => .ok none []
    | .eofMarker => .ioError
    | .bad => .ioError

/-- The encoder of `MsgPackCodec`: serialize into a temporary buffer and
append to `buf`; serialization of a `Value` cannot fail. -/
def MsgPackCodec.encode (msg : Value) (buf : List Nat) : List Nat :=
  buf ++ encodeValue msg

end Safesec


/-! ## RPC message layer (`src/network/rpc`)

The `message.rs` in the tree is an older snapshot (Marker-based errors,
`message()`/`raw_message()` accessors): its own sibling modules
(`request.rs`, `notify.rs`, `response.rs`) and `error/network.rs` import
`value_type`, a `String`-based `check_int` and the `RpcError`-kinded
`Error`, none of which that snapshot defines. The current revision of
`message.rs` is therefore missing from the sources; the definitions below
that carry a `Modelled from the spec` note reconstruct exactly those
missing helpers from the design document (which also pins their error
strings), while everything else is translated from the files present. -/

namespace Safesec

/-- Accessor `rmpv::Value::as_u64`: only a non-negative `Integer` yields a value. -/
def Value.asU64 : Value → Option Nat
  | .int n => if 0 ≤ n then some n.toNat else none
  | _ => none

/-- Accessor `rmpv::Value::as_array`. -/
def Value.asArr : Value → Option VList
  | .arr items => some items
  | _ => none

/-- Accessor `rmpv::Value::is_bin`. -/
def Value.isBin : Value → Bool
  | .bin _ => true
  | _ => false

/-- Accessor `rmpv::Value::as_slice`: the byte payload of a `Binary` value. -/
def Value.asSlice : Value → Option (List Nat)
  | .bin d => some d
  | _ => none

/-- Element lookup in a `VList` (Rust's `array[i]` indexing). -/
def VList.get? : VList → Nat → Option Value
  | .vnil, _ => none
  | .vcons v _, 0 => some v
  | .vcons _ tl, n + 1 => tl.get? n

/-- Modelled from the spec: the free function `value_type` of the current
`network/rpc/message.rs` revision, which is missing from the sources. The
spec fixes the strings `{nil, bool, int, float32, float64, str, bytearray,
array, map, ext}`; the older in-tree `value_type_name` lists the same map. -/
def value_type : Value → String
  | .nil => "nil"
  | .bool _ => "bool"
  | .int _ => "int"
  | .f32 _ => "float32"
  | .f64 _ => "float64"
  | .str _ => "str"
  | .bin _ => "bytearray"
  | .arr _ => "array"
  | .map _ => "map"
  | .ext _ _ => "ext"

/-- Modelled from the spec: the `String`-flavoured `check_int` of the current
`message.rs` revision (missing from the sources; the in-tree older snapshot
takes a `Marker`). The spec pins: `check_int(None, _, _)` always fails with
"expected T but got None"; `check_int(Some(v), max, _)` succeeds iff
`v <= max`; the test suite of `request.rs` pins the exact strings. -/
def check_int (val : Option Nat) (maxValue : Nat) (expected : String) : Except String Nat :=
  match val with
  | none => .error ("expected " ++ expected ++ " but got None")
  | some v =>
    if v > maxValue then
      .error ("expected value <= " ++ Nat.repr maxValue ++ " but got value " ++ Nat.repr v)
    else
      .ok v

/-- Error kinds of `error/network.rs` (`RpcError`). -/
inductive RpcError where
  | InvalidMessage
  | InvalidArrayLength
  | InvalidMessageType
  | InvalidIDType
  | InvalidRequest
  | InvalidRequestType
  | InvalidResponse
  | InvalidResponseType
  | InvalidNotification
  | InvalidNotificationType
  | InvalidRequestArgs
  | InvalidNotificationArgs
deriving DecidableEq

/-- An `Error<RpcError>` as produced by `Error::new(kind, errmsg)`: the kind
together with the description string of the wrapped error. -/
structure RpcErr where
  kind : RpcError
  msg : String
deriving DecidableEq

/-- Outcome of an RPC-layer operation: success, a returned error, or a Rust
panic (`unwrap` on `Err`/`None`, `unreachable!`). -/
inductive RpcOut (α : Type) where
  | ok (a : α)
  | err (e : RpcErr)
  | panic

/-- Modelled from the spec: `Message::from` of the current `message.rs`
revision (missing from the sources; the older in-tree snapshot returns
`Marker`-based `MessageError`s). Per spec section 4.3 the checks run in
order: (1) the value must be an array, else `InvalidMessage("expected array
but got <type_name>")`; (2) the length must be 3 or 4, else
`InvalidArrayLength("expected array length of either 3 or 4, got N")`;
(3) `array[0]` must be an unsigned integer `<= 255` (via `check_int`), else
`InvalidMessageType` with the `check_int` explanation. On success the
`Message` owns the value unchanged. -/
def Message.from (val : Value) : Except RpcErr Value :=
  match val.asArr with
  | none => .error ⟨.InvalidMessage, "expected array but got " ++ value_type val⟩
  | some arr =>
    if arr.length = 3 ∨ arr.length = 4 then
      match arr with
      | .vcons first _ =>
        match check_int first.asU64 255 "u8" with
        | .error e => .error ⟨.InvalidMessageType, e⟩
        | .ok _ => .ok val
      | .vnil => .error ⟨.InvalidMessageType, "expected u8 but got None"⟩
    else
      .error ⟨.InvalidArrayLength,
        "expected array length of either 3 or 4, got " ++ Nat.repr arr.length⟩

/-- The `MessageType` enum (`network/rpc/message.rs`): 0 = Request,
1 = Response, 2 = Notification. -/
inductive MessageType where
  | Request
  | Response
  | Notification
deriving DecidableEq

/-- `MessageType::from_number` (an invalid number is an error; the caller in
the state machine unwraps, so `none` there becomes a panic). -/
def MessageType.fromNumber : Nat → Option MessageType
  | 0 => some .Request
  | 1 => some .Response
  | 2 => some .Notification
  | _ => none

/-- `MessageType::to_number` (`self.clone() as u8`). -/
def MessageType.toNumber : MessageType → Nat
  | .Request => 0
  | .Response => 1
  | .Notification => 2

/-- `RpcMessage::message_type` composed with the `.unwrap()` at its call
sites in the state machine: `none` models the panic (either the
`unreachable!` when `array[0]` is not an unsigned integer, or the unwrap of
`Err(InvalidMessageType)` for a number above 2). -/
def messageTypeOf (m : Value) : Option MessageType :=
  match m.asArr with
  | none => none
  | some arr =>
    match arr.get? 0 with
    | none => none
    | some v =>
      match v.asU64 with
      | none => none
      | some n => MessageType.fromNumber (n % 256)

/-! ### The `CodeConvert` derive (`derive/src/lib.rs`) -/

/-- Discriminant assignment of `impl_code_convert`: the running counter
`num` starts at 0, an explicit discriminant resets it, and each variant
emits the current value and increments. The same rule assigns the Rust
enum discriminants themselves, so `to_number`'s `clone() as u8` agrees. -/
def assignNums : List (Option Nat) → Nat → List Nat
  | [], _ => []
  | none :: tl, num => num :: assignNums tl (num + 1)
  | some d :: tl, _ => d :: assignNums tl (d + 1)

/-- Generated `from_number`: the match arms test the assigned numbers in
declaration order; a number matching no arm falls through to
`Err(Error::new(GeneralError::InvalidValue, num.to_string()))`. The `ok`
payload is the index of the matching variant. -/
def genFromNumber (assigned : List Nat) (num : Nat) : Except String Nat :=
  match assigned.findIdx? (fun d => d == num) with
  | some i => .ok i
  | none => .error (Nat.repr num)

/-- Generated `to_number`: the discriminant assigned to the variant. -/
def genToNumber (assigned : List Nat) (variant : Nat) : Nat :=
  assigned.getD variant 0

/-! ### Protocol vocabulary (`src/protocol/message.rs`) -/

/-- `ProtocolError` of `protocol/message.rs`. -/
inductive ProtocolError where
  | InvalidData
  | InvalidMessage
  | InvalidMessageType
  | UnexpectedMessage
  | InvalidRequestID
  | InvalidRequestType
  | InvalidRequestArgs
  | InvalidRequest
  | InvalidResponseID
  | InvalidResponseType
  | InvalidResponse
  | InvalidNotificationType
  | InvalidNotificationArgs
  | InvalidNotification
deriving DecidableEq

/-- `SessionType` (`Boot = 0`, `Auth = 1`). -/
inductive SessionType where
  | Boot
  | Auth
deriving DecidableEq

def SessionType.fromNumber : Nat → Except String SessionType
  | 0 => .ok .Boot
  | 1 => .ok .Auth
  | n => .error (Nat.repr n)

def SessionType.toNumber : SessionType → Nat
  | .Boot => 0
  | .Auth => 1

/-- `BootMessage` request methods (`KeyExists = 0`, `GetKeyFile = 1`). -/
inductive BootMessage where
  | KeyExists
  | GetKeyFile
deriving DecidableEq

def BootMessage.fromNumber : Nat → Except String BootMessage
  | 0 => .ok .KeyExists
  | 1 => .ok .GetKeyFile
  | n => .error (Nat.repr n)

def BootMessage.toNumber : BootMessage → Nat
  | .KeyExists => 0
  | .GetKeyFile => 1

/-- `BootError` response codes (`Nil = 0`, `KeyFileNotFound = 1`). -/
inductive BootError where
  | Nil
  | KeyFileNotFound
deriving DecidableEq

def BootError.fromNumber : Nat → Except String BootError
  | 0 => .ok .Nil
  | 1 => .ok .KeyFileNotFound
  | n => .error (Nat.repr n)

def BootError.toNumber : BootError → Nat
  | .Nil => 0
  | .KeyFileNotFound => 1

/-- `BootNotice` with the explicit discriminant `Done = 2`. -/
inductive BootNotice where
  | Done
deriving DecidableEq

def BootNotice.fromNumber : Nat → Except String BootNotice
  | 2 => .ok .Done
  | n => .error (Nat.repr n)

def BootNotice.toNumber : BootNotice → Nat
  | .Done => 2

/-- `AuthMessage` request methods, numbered 0..6 in declaration order. -/
inductive AuthMessage where
  | GetKeyFile
  | CreateKeyFile
  | ChangeKeyFile
  | ChangeKey
  | ReplaceKeyFile
  | DeleteKeyFile
  | KeyExists
deriving DecidableEq

def AuthMessage.fromNumber : Nat → Except String AuthMessage
  | 0 => .ok .GetKeyFile
  | 1 => .ok .CreateKeyFile
  | 2 => .ok .ChangeKeyFile
  | 3 => .ok .ChangeKey
  | 4 => .ok .ReplaceKeyFile
  | 5 => .ok .DeleteKeyFile
  | 6 => .ok .KeyExists
  | n => .error (Nat.repr n)

def AuthMessage.toNumber : AuthMessage → Nat
  | .GetKeyFile => 0
  | .CreateKeyFile => 1
  | .ChangeKeyFile => 2
  | .ChangeKey => 3
  | .ReplaceKeyFile => 4
  | .DeleteKeyFile => 5
  | .KeyExists => 6

/-- `AuthError` response codes. -/
inductive AuthError where
  | Nil
  | KeyFileNotFound
  | KeyFileExists
  | DatabaseError
deriving DecidableEq

def AuthError.fromNumber : Nat → Except String AuthError
  | 0 => .ok .Nil
  | 1 => .ok .KeyFileNotFound
  | 2 => .ok .KeyFileExists
  | 3 => .ok .DatabaseError
  | n => .error (Nat.repr n)

def AuthError.toNumber : AuthError → Nat
  | .Nil => 0
  | .KeyFileNotFound => 1
  | .KeyFileExists => 2
  | .DatabaseError => 3

/-- `AuthNotice` with the explicit discriminant `Done = 2`. -/
inductive AuthNotice where
  | Done
deriving DecidableEq

def AuthNotice.fromNumber : Nat → Except String AuthNotice
  | 2 => .ok .Done
  | n => .error (Nat.repr n)

def AuthNotice.toNumber : AuthNotice → Nat
  | .Done => 2

/-- The `CodeConvert` capability: conversion between a code enum and `u8`. -/
structure CodeConvert (α : Type) where
  fromNumber : Nat → Except String α
  toNumber : α → Nat

def sessionTypeCC : CodeConvert SessionType := ⟨SessionType.fromNumber, SessionType.toNumber⟩

def bootMessageCC : CodeConvert BootMessage := ⟨BootMessage.fromNumber, BootMessage.toNumber⟩

def bootErrorCC : CodeConvert BootError := ⟨BootError.fromNumber, BootError.toNumber⟩

def bootNoticeCC : CodeConvert BootNotice := ⟨BootNotice.fromNumber, BootNotice.toNumber⟩

def authMessageCC : CodeConvert AuthMessage := ⟨AuthMessage.fromNumber, AuthMessage.toNumber⟩

def authErrorCC : CodeConvert AuthError := ⟨AuthError.fromNumber, AuthError.toNumber⟩

def authNoticeCC : CodeConvert AuthNotice := ⟨AuthNotice.fromNumber, AuthNotice.toNumber⟩
/-! ### Typed messages (`request.rs`, `notify.rs`, `response.rs`) -/

/-- `RequestMessage::<C>::from(msg)` (`network/rpc/request.rs`). The message
is a validated `Message`, so the `as_u64().unwrap()` in
`check_message_type` can only panic on values violating that invariant.
Checks run in order over the four array slots, returning the first error:
array length 4 (`InvalidArrayLength`), `array[0] == 0` i.e. Request
(`InvalidMessageType`), `array[1]` fits `u32` (`InvalidIDType`),
`array[2]` fits `u8` and maps into `C` (`InvalidRequest`), `array[3]` is
an array (`InvalidRequestArgs`). `as u8` casts truncate modulo 256. -/
def RequestMessage.from (C : CodeConvert α) (msg : Value) : RpcOut Unit :=
  match msg.asArr with
  | none => .panic
  | some arr =>
    if arr.length ≠ 4 then
      .err ⟨.InvalidArrayLength, "expected array length of 4, got " ++ Nat.repr arr.length⟩
    else
      match arr with
      | .vcons a0 (.vcons a1 (.vcons a2 (.vcons a3 .vnil))) =>
        match a0.asU64 with
        | none => .panic
        | some t =>
          if t % 256 ≠ 0 then
            .err ⟨.InvalidMessageType,
              "expected 0 for message type (ie MessageType::Request), got " ++ Nat.repr (t % 256)⟩
          else
            match check_int a1.asU64 (2 ^ 32 - 1) "u32" with
            | .error e => .err ⟨.InvalidIDType, e⟩
            | .ok _ =>
              match check_int a2.asU64 255 "u8" with
              | .error e => .err ⟨.InvalidRequest, e⟩
              | .ok v =>
                match C.fromNumber (v % 256) with
                | .error e => .err ⟨.InvalidRequest, e⟩
                | .ok _ =>
                  match a3.asArr with
                  | none =>
                    .err ⟨.InvalidRequestArgs,
                      "expected array for request arguments but got " ++ value_type a3⟩
                  | some _ => .ok ()
      | _ => .panic

/-- `RpcRequest::message_id` / `RpcResponse::message_id`:
`as_vec()[1].as_u64().unwrap() as u32`. `none` models the panic. -/
def msgIdOf (msg : Value) : Option Nat :=
  match msg.asArr with
  | none => none
  | some arr =>
    match arr.get? 1 with
    | none => none
    | some v =>
      match v.asU64 with
      | none => none
      | some n => some (n % 2 ^ 32)

/-- `RpcRequest::message_code`: `as_vec()[2].as_u64().unwrap() as u8`
fed through `C::from_number(..).unwrap()`. `none` models the panic. -/
def msgCodeOf (C : CodeConvert α) (msg : Value) : Option α :=
  match msg.asArr with
  | none => none
  | some arr =>
    match arr.get? 2 with
    | none => none
    | some v =>
      match v.asU64 with
      | none => none
      | some n =>
        match C.fromNumber (n % 256) with
        | .ok c => some c
        | .error _ => none

/-- `RpcRequest::message_args`: `as_vec()[3].as_array().unwrap()`. -/
def msgArgsOf (msg : Value) : Option VList :=
  match msg.asArr with
  | none => none
  | some arr =>
    match arr.get? 3 with
    | none => none
    | some v => v.asArr

/-- `NotificationMessage::<C>::from(msg)` (`network/rpc/notify.rs`) fused
with the `message_code()` read its callers perform right after: on success
the decoded notice code is returned directly (the getter re-extracts
`array[1]` and unwraps, which succeeds exactly when `from` did). Checks in
order: length 3 (`InvalidArrayLength`), `array[0] == 2` i.e. Notification
(`InvalidMessageType`), `array[1]` fits `u8` and maps into `C`
(`InvalidNotification`), `array[2]` is an array
(`InvalidNotificationArgs`). -/
def NotificationMessage.from (C : CodeConvert α) (msg : Value) : RpcOut α :=
  match msg.asArr with
  | none => .panic
  | some arr =>
    if arr.length ≠ 3 then
      .err ⟨.InvalidArrayLength, "expected array length of 3, got " ++ Nat.repr arr.length⟩
    else
      match arr with
      | .vcons a0 (.vcons a1 (.vcons a2 .vnil)) =>
        match a0.asU64 with
        | none => .panic
        | some t =>
          if t % 256 ≠ 2 then
            .err ⟨.InvalidMessageType,
              "expected 2 for message type (ie MessageType::Notification), got "
                ++ Nat.repr (t % 256)⟩
          else
            match check_int a1.asU64 255 "u8" with
            | .error e => .err ⟨.InvalidNotification, e⟩
            | .ok v =>
              match C.fromNumber (v % 256) with
              | .error e => .err ⟨.InvalidNotification, e⟩
              | .ok c =>
                match a2.asArr with
                | none =>
                  .err ⟨.InvalidNotificationArgs,
                    "expected array for request arguments but got " ++ value_type a2⟩
                | some _ => .ok c
      | _ => .panic


/-- `RequestMessage::<C>::new(msgid, msgcode, args)` (`request.rs`): builds
`[Request as u8, msgid, msgcode.to_number(), args]`; it cannot fail. -/
def RequestMessage.new (C : CodeConvert α) (msgid : Nat) (msgcode : α) (args : VList) : Value :=
  .arr (.vcons (.int 0)
    (.vcons (.int msgid)
      (.vcons (.int (C.toNumber msgcode))
        (.vcons (.arr args) .vnil))))

/-- `NotificationMessage::<C>::new(notifycode, args)` (`notify.rs`): builds
`[Notification as u8, notifycode.to_number(), args]`. -/
def NotificationMessage.new (C : CodeConvert α) (notifycode : α) (args : VList) : Value :=
  .arr (.vcons (.int 2)
    (.vcons (.int (C.toNumber notifycode))
      (.vcons (.arr args) .vnil)))

/-- `ResponseMessage::<C>::new(msgid, errcode, result)`
(`network/rpc/response.rs`): builds the value
`[Response as u8, msgid, errcode.to_number(), result]`. -/
def ResponseMessage.new (C : CodeConvert α) (msgid : Nat) (errcode : α) (result : Value) : Value :=
  .arr (.vcons (.int 1)
    (.vcons (.int msgid)
      (.vcons (.int (C.toNumber errcode))
        (.vcons result .vnil))))

/-- `RpcResponse::error_code`: `as_vec()[2].as_u64().unwrap() as u8` through
`C::from_number(..).unwrap()`. -/
def errorCodeOf (C : CodeConvert α) (msg : Value) : Option α :=
  msgCodeOf C msg

/-- `RpcResponse::result`: `&as_vec()[3]`. -/
def resultOf (msg : Value) : Option Value :=
  match msg.asArr with
  | none => none
  | some arr => arr.get? 3

/-! ### Keyfile store (`src/storage`)

Modelled from the spec: the `KeyFileStore` capability the state machine
consumes (`exists` / `get` / `set` / `delete`, spec sections 3 and 4.6).
The `storage/mod.rs` in the tree is an older snapshot whose trait lacks
`delete` and takes `set(&self, ..)`; the current trait used by
`service/state/{auth,boot}.rs` is missing from the sources. `exists` and
`get` take `&self` and cannot mutate; `set` and `delete` take `&mut self`
and return the possibly-changed store next to their result. `KeyFileError`
itself is in the tree (`Key(bytes)` / `Other`). -/

/-- `KeyFileError` (`storage/mod.rs`). -/
inductive KeyFileError where
  | Key (k : List Nat)
  | Other

/-- The abstract store capability over a state type `σ`. -/
structure KeyFileStore (σ : Type) where
  dbExists : σ → List Nat → Bool
  dbGet : σ → List Nat → Except KeyFileError (List Nat)
  dbSet : σ → List Nat → List Nat → Except KeyFileError Unit × σ
  dbDelete : σ → List Nat → Except KeyFileError Unit × σ

/-- Association-list store state: a concrete `KeyFileStore` instance used
to evaluate the handlers on explicit inputs. -/
def ListStore := List (List Nat × List Nat)

def listExists (s : ListStore) (k : List Nat) : Bool :=
  s.any (fun e => e.1 == k)

def listGet (s : ListStore) (k : List Nat) : Except KeyFileError (List Nat) :=
  match s.find? (fun e => e.1 == k) with
  | some e => .ok e.2
  | none => .error (.Key k)

def listSet (s : ListStore) (k v : List Nat) : Except KeyFileError Unit × ListStore :=
  (.ok (), (k, v) :: s.filter (fun e => ¬ e.1 == k))

def listDelete (s : ListStore) (k : List Nat) : Except KeyFileError Unit × ListStore :=
  if listExists s k then (.ok (), s.filter (fun e => ¬ e.1 == k))
  else (.error (.Key k), s)

def listStore : KeyFileStore ListStore :=
  ⟨listExists, listGet, listSet, listDelete⟩

/-! ### Session state machine (`src/service/state`) -/

/-- Outcome of a state-machine operation: success, a `ProtocolError`
(`StateResult::Err`, fatal for the connection), or a Rust panic
(`unwrap` on `Err`, `unreachable!`, `unimplemented!`). -/
inductive HRes (α : Type) where
  | ok (a : α)
  | protoErr (e : ProtocolError)
  | panic

/-- `AuthResponse::new` = `ResponseMessage::<AuthError>::new`. -/
def AuthResponse.new (msgid : Nat) (errcode : AuthError) (result : Value) : Value :=
  ResponseMessage.new authErrorCC msgid errcode result

/-- `BootResponse::new` = `ResponseMessage::<BootError>::new`. -/
def BootResponse.new (msgid : Nat) (errcode : BootError) (result : Value) : Value :=
  ResponseMessage.new bootErrorCC msgid errcode result

/-- Collect the byte payloads of the arguments, failing on the first
argument that is not the `Binary` variant (the `is_bin` loop of
`_check_message`). -/
def collectBins : VList → Option (List (List Nat))
  | .vnil => some []
  | .vcons v tl =>
    match v.asSlice with
    | none => none
    | some d =>
      match collectBins tl with
      | none => none
      | some ds => some (d :: ds)

/-- `ProcessAuthRequest::_check_message(req, numargs)` (`auth.rs`): the
argument array must have exactly `numargs` elements
(`InvalidRequestArgs`), each of the `Binary` variant (`InvalidRequest`);
returns the payloads. -/
def checkMessage (req : Value) (numargs : Nat) : HRes (List (List Nat)) :=
  match msgArgsOf req with
  | none => .panic
  | some args =>
    if args.length ≠ numargs then .protoErr .InvalidRequestArgs
    else
      match collectBins args with
      | none => .protoErr .InvalidRequest
      | some ret => .ok ret

/-- `ProcessAuthRequest::req_key_exists`. -/
def reqKeyExists (S : KeyFileStore σ) (db : σ) (req : Value) : HRes (Value × σ) :=
  match checkMessage req 1 with
  | .panic => .panic
  | .protoErr e => .protoErr e
  | .ok args =>
    match args with
    | [key] =>
      match msgIdOf req with
      | none => .panic
      | some id => .ok (AuthResponse.new id .Nil (.bool (S.dbExists db key)), db)
    | _ => .panic

/-- `ProcessAuthRequest::req_get_keyfile`: a hit answers `Nil` with the
file bytes; a missing key answers `KeyFileNotFound` echoing the key the
error carries; any other engine error hits `unimplemented!()`. -/
def reqGetKeyfile (S : KeyFileStore σ) (db : σ) (req : Value) : HRes (Value × σ) :=
  match checkMessage req 1 with
  | .panic => .panic
  | .protoErr e => .protoErr e
  | .ok args =>
    match args with
    | [key] =>
      match msgIdOf req with
      | none => .panic
      | some id =>
        match S.dbGet db key with
        | .ok f => .ok (AuthResponse.new id .Nil (.bin f), db)
        | .error (.Key k) => .ok (AuthResponse.new id .KeyFileNotFound (.bin k), db)
        | .error .Other => .panic
    | _ => .panic

/-- `ProcessAuthRequest::req_create_keyfile`. -/
def reqCreateKeyfile (S : KeyFileStore σ) (db : σ) (req : Value) : HRes (Value × σ) :=
  match checkMessage req 2 with
  | .panic => .panic
  | .protoErr e => .protoErr e
  | .ok args =>
    match args with
    | [key, keyfile] =>
      match msgIdOf req with
      | none => .panic
      | some id =>
        if S.dbExists db key then
          .ok (AuthResponse.new id .KeyFileExists (.bin key), db)
        else
          match S.dbSet db key keyfile with
          | (.ok _, db2) => .ok (AuthResponse.new id .Nil (.bool true), db2)
          | (.error .Other, db2) => .ok (AuthResponse.new id .DatabaseError (.bool false), db2)
          | (.error (.Key _), _) => .panic
    | _ => .panic

/-- `ProcessAuthRequest::req_change_keyfile`. -/
def reqChangeKeyfile (S : KeyFileStore σ) (db : σ) (req : Value) : HRes (Value × σ) :=
  match checkMessage req 2 with
  | .panic => .panic
  | .protoErr e => .protoErr e
  | .ok args =>
    match args with
    | [key, newKeyfile] =>
      match msgIdOf req with
      | none => .panic
      | some id =>
        if ¬ S.dbExists db key then
          .ok (AuthResponse.new id .KeyFileNotFound (.bin key), db)
        else
          match S.dbSet db key newKeyfile with
          | (.ok _, db2) => .ok (AuthResponse.new id .Nil (.bool true), db2)
          | (.error .Other, db2) => .ok (AuthResponse.new id .DatabaseError (.bool false), db2)
          | (.error (.Key _), _) => .panic
    | _ => .panic

/-- `ProcessAuthRequest::req_del_keyfile`. -/
def reqDelKeyfile (S : KeyFileStore σ) (db : σ) (req : Value) : HRes (Value × σ) :=
  match checkMessage req 1 with
  | .panic => .panic
  | .protoErr e => .protoErr e
  | .ok args =>
    match args with
    | [key] =>
      match msgIdOf req with
      | none => .panic
      | some id =>
        if ¬ S.dbExists db key then
          .ok (AuthResponse.new id .KeyFileNotFound (.bin key), db)
        else
          match S.dbDelete db key with
          | (.ok _, db2) => .ok (AuthResponse.new id .Nil (.bool true), db2)
          | (.error .Other, db2) => .ok (AuthResponse.new id .DatabaseError (.bool false), db2)
          | (.error (.Key _), _) => .panic
    | _ => .panic

/-- `ProcessAuthRequest::req_change_key` (`auth.rs` lines 328–391), under
the exclusive write lock: first the new-key existence check aborts with
`KeyFileExists` echoing the new key before any read or mutation; then the
old keyfile is fetched (`KeyFileNotFound` echoes the key carried by the
error), the old key deleted and the keyfile re-added under the new key,
each engine failure answering `DatabaseError`. -/
def reqChangeKey (S : KeyFileStore σ) (db : σ) (req : Value) : HRes (Value × σ) :=
  match checkMessage req 2 with
  | .panic => .panic
  | .protoErr e => .protoErr e
  | .ok args =>
    match args with
    | [oldkey, newkey] =>
      match msgIdOf req with
      | none => .panic
      | some id =>
        if S.dbExists db newkey then
          .ok (AuthResponse.new id .KeyFileExists (.bin newkey), db)
        else
          match S.dbGet db oldkey with
          | .error (.Key k) => .ok (AuthResponse.new id .KeyFileNotFound (.bin k), db)
          | .error .Other => .ok (AuthResponse.new id .DatabaseError (.bool false), db)
          | .ok keyfile =>
            match S.dbDelete db oldkey with
            | (.error .Other, db2) =>
              .ok (AuthResponse.new id .DatabaseError (.bool false), db2)
            | (.error (.Key _), _) => .panic
            | (.ok _, db2) =>
              match S.dbSet db2 newkey keyfile with
              | (.ok _, db3) => .ok (AuthResponse.new id .Nil (.bool true), db3)
              | (.error .Other, db3) =>
                .ok (AuthResponse.new id .DatabaseError (.bool false), db3)
              | (.error (.Key _), _) => .panic
    | _ => .panic

/-- `ProcessAuthRequest::req_replace_keyfile`. -/
def reqReplaceKeyfile (S : KeyFileStore σ) (db : σ) (req : Value) : HRes (Value × σ) :=
  match checkMessage req 3 with
  | .panic => .panic
  | .protoErr e => .protoErr e
  | .ok args =>
    match args with
    | [oldkey, newkey, newKeyfile] =>
      match msgIdOf req with
      | none => .panic
      | some id =>
        if S.dbExists db newkey then
          .ok (AuthResponse.new id .KeyFileExists (.bin newkey), db)
        else
          match S.dbDelete db oldkey with
          | (.error .Other, db2) =>
            .ok (AuthResponse.new id .DatabaseError (.bool false), db2)
          | (.error (.Key k), db2) =>
            .ok (AuthResponse.new id .KeyFileNotFound (.bin k), db2)
          | (.ok _, db2) =>
            match S.dbSet db2 newkey newKeyfile with
            | (.ok _, db3) => .ok (AuthResponse.new id .Nil (.bool true), db3)
            | (.error .Other, db3) =>
              .ok (AuthResponse.new id .DatabaseError (.bool false), db3)
            | (.error (.Key _), _) => .panic
    | _ => .panic

/-- `ProcessAuthRequest::run`: `AuthRequest::from(m).unwrap()` — the unwrap
panics whenever `from` fails (for example an unmapped method code) — then
dispatch on `message_code()`. -/
def ProcessAuthRequest.run (S : KeyFileStore σ) (db : σ) (m : Value) : HRes (Value × σ) :=
  match RequestMessage.from authMessageCC m with
  | .err _ => .panic
  | .panic => .panic
  | .ok _ =>
    match msgCodeOf authMessageCC m with
    | none => .panic
    | some c =>
      match c with
      | .KeyExists => reqKeyExists S db m
      | .GetKeyFile => reqGetKeyfile S db m
      | .CreateKeyFile => reqCreateKeyfile S db m
      | .ChangeKeyFile => reqChangeKeyfile S db m
      | .DeleteKeyFile => reqDelKeyfile S db m
      | .ChangeKey => reqChangeKey S db m
      | .ReplaceKeyFile => reqReplaceKeyfile S db m

/-- `ProcessBootRequest::_check_message(req)` (`boot.rs`): exactly one
argument (`InvalidRequestArgs`), of the `Binary` variant
(`InvalidRequest`); returns the key bytes. -/
def checkMessageBoot (req : Value) : HRes (List Nat) :=
  match msgArgsOf req with
  | none => .panic
  | some args =>
    if args.length ≠ 1 then .protoErr .InvalidRequestArgs
    else
      match args.get? 0 with
      | none => .panic
      | some v =>
        match v.asSlice with
        | none => .protoErr .InvalidRequest
        | some key => .ok key

/-- `ProcessBootRequest::req_key_exists`. -/
def bootReqKeyExists (S : KeyFileStore σ) (db : σ) (req : Value) : HRes (Value × σ) :=
  match checkMessageBoot req with
  | .panic => .panic
  | .protoErr e => .protoErr e
  | .ok key =>
    match msgIdOf req with
    | none => .panic
    | some id => .ok (BootResponse.new id .Nil (.bool (S.dbExists db key)), db)

/-- `ProcessBootRequest::req_get_keyfile` (`boot.rs` lines 144–180): a hit
answers `Nil` with the file bytes; a missing key answers `KeyFileNotFound`
echoing the key the error carries; any other engine error hits
`unimplemented!()` — the task panics and no response is produced. -/
def bootReqGetKeyfile (S : KeyFileStore σ) (db : σ) (req : Value) : HRes (Value × σ) :=
  match checkMessageBoot req with
  | .panic => .panic
  | .protoErr e => .protoErr e
  | .ok key =>
    match msgIdOf req with
    | none => .panic
    | some id =>
      match S.dbGet db key with
      | .ok f => .ok (BootResponse.new id .Nil (.bin f), db)
      | .error (.Key k) => .ok (BootResponse.new id .KeyFileNotFound (.bin k), db)
      | .error .Other => .panic

/-- `ProcessBootRequest::run`: `BootRequest::from(m).unwrap()` then dispatch. -/
def ProcessBootRequest.run (S : KeyFileStore σ) (db : σ) (m : Value) : HRes (Value × σ) :=
  match RequestMessage.from bootMessageCC m with
  | .err _ => .panic
  | .panic => .panic
  | .ok _ =>
    match msgCodeOf bootMessageCC m with
    | none => .panic
    | some c =>
      match c with
      | .KeyExists => bootReqKeyExists S db m
      | .GetKeyFile => bootReqGetKeyfile S db m

/-- The per-connection session states (`service/state/mod.rs`). The data a
state carries (the store handle) is threaded separately, so the plain tag
is enough here. -/
inductive SessState where
  | Start
  | ProcessBoot
  | BootEnd
  | ProcessAuth
  | AuthEnd
deriving DecidableEq

/-- One step of `ProcessAuthMessage::change` (`auth.rs` lines 64–93):
dispatch on `m.message_type().unwrap()`. A Request runs the auth handler
and stays in `ProcessAuth` carrying its response; a Notification is parsed
as an `AuthInfo` (failure is `ProtocolError::InvalidNotification`) and
`Done` ends the session; a Response is `UnexpectedMessage`. -/
def ProcessAuthMessage.change (S : KeyFileStore σ) (db : σ) (m : Value) :
    HRes (SessState × Option Value × σ) :=
  match messageTypeOf m with
  | none => .panic
  | some .Request =>
    match ProcessAuthRequest.run S db m with
    | .protoErr e => .protoErr e
    | .panic => .panic
    | .ok (response, db2) => .ok (.ProcessAuth, some response, db2)
  | some .Notification =>
    match NotificationMessage.from authNoticeCC m with
    | .err _ => .protoErr .InvalidNotification
    | .panic => .panic
    | .ok .Done => .ok (.AuthEnd, none, db)
  | some .Response => .protoErr .UnexpectedMessage

/-- One step of `ProcessBootMessage::change` (`boot.rs` lines 63–92). -/
def ProcessBootMessage.change (S : KeyFileStore σ) (db : σ) (m : Value) :
    HRes (SessState × Option Value × σ) :=
  match messageTypeOf m with
  | none => .panic
  | some .Request =>
    match ProcessBootRequest.run S db m with
    | .protoErr e => .protoErr e
    | .panic => .panic
    | .ok (response, db2) => .ok (.ProcessBoot, some response, db2)
  | some .Notification =>
    match NotificationMessage.from bootNoticeCC m with
    | .err _ => .protoErr .InvalidNotification
    | .panic => .panic
    | .ok .Done => .ok (.BootEnd, none, db)
  | some .Response => .protoErr .UnexpectedMessage

/-- One step of `Start::change` (`service/state/mod.rs`): the opening
message must parse as a `SessionInfo` notification
(`ProtocolError::InvalidNotification` otherwise), and its code selects
boot or auth processing. -/
def Start.change (m : Value) : HRes SessState :=
  match NotificationMessage.from sessionTypeCC m with
  | .err _ => .protoErr .InvalidNotification
  | .panic => .panic
  | .ok .Boot => .ok .ProcessBoot
  | .ok .Auth => .ok .ProcessAuth


end Safesec

/-! ## Byte-level lemmas -/

namespace Safesec

theorem readBE_beBytes (k : Nat) :
    ∀ (n : Nat), n < 256 ^ k → ∀ (rest : List Nat),
      readBE k (beBytes k n ++ rest) = some (n, rest) := by
  induction k with
  | zero =>
    intro n h rest
    have hn : n = 0 := by simpa using h
    subst hn
    simp [beBytes, readBE]
  | succ k ih =>
    intro n h rest
    simp only [beBytes, List.cons_append, readBE, List.append_eq]
    rw [ih (n % 256 ^ k) (Nat.mod_lt _ (by positivity)) rest]
    simp only [Nat.div_add_mod']

theorem readBE_one (x : Nat) (b : List Nat) : readBE 1 (x :: b) = some (x, b) := by
  simp [readBE]

theorem takeN_append (d rest : List Nat) : takeN d.length (d ++ rest) = some (d, rest) := by
  induction d with
  | nil => simp [takeN]
  | cons x tl ih => simp [takeN, ih]

end Safesec

/-! ## Decoder unfolding lemmas for marker families with symbolic marker bytes -/

namespace Safesec

theorem deser_posfix (f m : Nat) (h : m < 0x80) (rest : List Nat) :
    deser (f + 1) (m :: rest) = .ok (.int m) rest := by
  rw [deser, deserStep]
  rw [if_pos h]

theorem deser_negfix (f m : Nat) (h1 : 0xe0 ≤ m) (h2 : m ≤ 0xff) (rest : List Nat) :
    deser (f + 1) (m :: rest) = .ok (.int ((m : Int) - 256)) rest := by
  rw [deser, deserStep]
  iterate 30 rw [if_neg (by omega)]
  rw [if_pos (by omega)]

theorem deser_fixstr_ok (f m : Nat) (h1 : 0xa0 ≤ m) (h2 : m < 0xc0) (rest d r : List Nat)
    (ht : takeN (m - 0xa0) rest = some (d, r)) (hu : utf8Valid d = true) :
    deser (f + 1) (m :: rest) = .ok (.str d) r := by
  rw [deser, deserStep]
  rw [if_neg (by omega), if_neg (by omega), if_neg (by omega), if_pos h2, ht]
  simp [hu]

theorem deser_fixarr_ok (f m : Nat) (h1 : 0x90 ≤ m) (h2 : m < 0xa0) (rest : List Nat)
    (items : VList) (r : List Nat)
    (hl : deserMany (deser f) (m - 0x90) rest = .ok items r) :
    deser (f + 1) (m :: rest) = .ok (.arr items) r := by
  rw [deser, deserStep]
  rw [if_neg (by omega), if_neg (by omega), if_pos h2, hl]

theorem deser_fixmap_ok (f m : Nat) (h1 : 0x80 ≤ m) (h2 : m < 0x90) (rest : List Nat)
    (entries : VPairs) (r : List Nat)
    (hp : deserManyP (deser f) (m - 0x80) rest = .ok entries r) :
    deser (f + 1) (m :: rest) = .ok (.map entries) r := by
  rw [deser, deserStep]
  rw [if_neg (by omega), if_pos h2, hp]

end Safesec

/-! ## Round-trip of the value serializer -/

namespace Safesec

theorem deser_encInt (f : Nat) (n : Int) (h1 : -(2 ^ 63) ≤ n) (h2 : n < 2 ^ 64)
    (rest : List Nat) :
    deser (f + 1) (encInt n ++ rest) = .ok (.int n) rest := by
  unfold encInt
  split_ifs with hneg ha hb hc hd he hf hg hh
  · rw [List.singleton_append, deser_negfix f _ (by omega) (by omega) rest]
    have hx : ((((256 : Int) + n).toNat : Int) - 256) = n := by omega
    rw [hx]
  · rw [show ([0xd0, ((256 : Int) + n).toNat] : List Nat) ++ rest
        = 0xd0 :: (((256 : Int) + n).toNat :: rest) from rfl]
    rw [deser, deserStep]
    norm_num
    rw [readBE_one]
    have hx : toSigned 8 ((256 : Int) + n).toNat = n := by
      unfold toSigned
      rw [if_neg (by norm_num; omega)]
      norm_num
      omega
    exact congrArg (fun z => DecRes.ok (.int z) rest) hx
  · rw [List.cons_append, deser, deserStep]
    norm_num
    rw [readBE_beBytes 2 _ (by norm_num; omega) rest]
    have hx : toSigned 16 ((2 : Int) ^ 16 + n).toNat = n := by
      unfold toSigned
      rw [if_neg (by norm_num; omega)]
      norm_num
      omega
    exact congrArg (fun z => DecRes.ok (.int z) rest) hx
  · rw [List.cons_append, deser, deserStep]
    norm_num
    rw [readBE_beBytes 4 _ (by norm_num; omega) rest]
    have hx : toSigned 32 ((2 : Int) ^ 32 + n).toNat = n := by
      unfold toSigned
      rw [if_neg (by norm_num; omega)]
      norm_num
      omega
    exact congrArg (fun z => DecRes.ok (.int z) rest) hx
  · rw [List.cons_append, deser, deserStep]
    norm_num
    rw [readBE_beBytes 8 _ (by norm_num; omega) rest]
    have hx : toSigned 64 ((2 : Int) ^ 64 + n).toNat = n := by
      unfold toSigned
      rw [if_neg (by norm_num; omega)]
      norm_num
      omega
    exact congrArg (fun z => DecRes.ok (.int z) rest) hx
  · rw [List.singleton_append, deser_posfix f _ (by omega) rest]
    have hx : ((n.toNat : Int)) = n := by omega
    rw [hx]
  · rw [show ([0xcc, n.toNat] : List Nat) ++ rest = 0xcc :: (n.toNat :: rest) from rfl]
    rw [deser, deserStep]
    norm_num
    rw [readBE_one]
    have hx : ((n.toNat : Int)) = n := by omega
    exact congrArg (fun z => DecRes.ok (.int z) rest) hx
  · rw [List.cons_append, deser, deserStep]
    norm_num
    rw [readBE_beBytes 2 _ (by norm_num; omega) rest]
    have hx : ((n.toNat : Int)) = n := by omega
    exact congrArg (fun z => DecRes.ok (.int z) rest) hx
  · rw [List.cons_append, deser, deserStep]
    norm_num
    rw [readBE_beBytes 4 _ (by norm_num; omega) rest]
    have hx : ((n.toNat : Int)) = n := by omega
    exact congrArg (fun z => DecRes.ok (.int z) rest) hx
  · rw [List.cons_append, deser, deserStep]
    norm_num
    rw [readBE_beBytes 8 _ (by norm_num; omega) rest]
    have hx : ((n.toNat : Int)) = n := by omega
    exact congrArg (fun z => DecRes.ok (.int z) rest) hx

theorem deser_encStr (f : Nat) (d : List Nat) (hu : utf8Valid d = true)
    (hl : d.length < 2 ^ 32) (rest : List Nat) :
    deser (f + 1) ((strHeader d.length ++ d) ++ rest) = .ok (.str d) rest := by
  rw [List.append_assoc]
  unfold strHeader
  split_ifs with h32 h256 h16
  · rw [List.singleton_append]
    refine deser_fixstr_ok f _ (by omega) (by omega) _ d rest ?ht hu
    rw [show 0xa0 + d.length - 0xa0 = d.length from by omega]
    exact takeN_append d rest
  · rw [show ([0xd9, d.length] : List Nat) ++ (d ++ rest)
        = 0xd9 :: (d.length :: (d ++ rest)) from rfl]
    rw [deser, deserStep]
    norm_num
    simp [readBE_one, takeN_append, hu]
  · rw [List.cons_append, deser, deserStep]
    norm_num
    rw [readBE_beBytes 2 _ (by omega) _]
    simp [takeN_append, hu]
  · rw [List.cons_append, deser, deserStep]
    norm_num
    rw [readBE_beBytes 4 _ (by omega) _]
    simp [takeN_append, hu]

theorem deser_encBin (f : Nat) (d : List Nat) (hl : d.length < 2 ^ 32) (rest : List Nat) :
    deser (f + 1) ((binHeader d.length ++ d) ++ rest) = .ok (.bin d) rest := by
  rw [List.append_assoc]
  unfold binHeader
  split_ifs with h256 h16
  · rw [show ([0xc4, d.length] : List Nat) ++ (d ++ rest)
        = 0xc4 :: (d.length :: (d ++ rest)) from rfl]
    rw [deser, deserStep]
    norm_num
    simp [readBE_one, takeN_append]
  · rw [List.cons_append, deser, deserStep]
    norm_num
    rw [readBE_beBytes 2 _ (by omega) _]
    simp [takeN_append]
  · rw [List.cons_append, deser, deserStep]
    norm_num
    rw [readBE_beBytes 4 _ (by omega) _]
    simp [takeN_append]

theorem depthV_pos (v : Value) : 1 ≤ depthV v := by
  cases v <;> simp [depthV]

mutual

theorem deser_encodeValue : ∀ (v : Value), wfValue v = true → ∀ (f : Nat), depthV v ≤ f →
    ∀ (rest : List Nat), deser f (encodeValue v ++ rest) = .ok v rest
  | .nil, hw, f, hf, rest => by
    have h1 : 1 ≤ f := le_trans (depthV_pos .nil) hf
    cases f with
    | zero => omega
    | succ f =>
      rw [show encodeValue .nil ++ rest = 0xc0 :: rest from rfl, deser, deserStep]
      norm_num
  | .bool b, hw, f, hf, rest => by
    have h1 : 1 ≤ f := le_trans (depthV_pos (.bool b)) hf
    cases f with
    | zero => omega
    | succ f =>
      cases b with
      | false =>
        rw [show encodeValue (.bool false) ++ rest = 0xc2 :: rest from rfl, deser, deserStep]
        norm_num
      | true =>
        rw [show encodeValue (.bool true) ++ rest = 0xc3 :: rest from rfl, deser, deserStep]
        norm_num
  | .int n, hw, f, hf, rest => by
    have h1 : 1 ≤ f := le_trans (depthV_pos (.int n)) hf
    simp only [wfValue, decide_eq_true_eq] at hw
    cases f with
    | zero => omega
    | succ f =>
      simp only [encodeValue]
      exact deser_encInt f n hw.1 hw.2 rest
  | .f32 bits, hw, f, hf, rest => by
    have h1 : 1 ≤ f := le_trans (depthV_pos (.f32 bits)) hf
    simp only [wfValue, decide_eq_true_eq] at hw
    cases f with
    | zero => omega
    | succ f =>
      rw [show encodeValue (.f32 bits) ++ rest = 0xca :: (beBytes 4 bits ++ rest) from rfl]
      rw [deser, deserStep]
      norm_num
      rw [readBE_beBytes 4 bits (by norm_num at hw ⊢; omega) rest]
  | .f64 bits, hw, f, hf, rest => by
    have h1 : 1 ≤ f := le_trans (depthV_pos (.f64 bits)) hf
    simp only [wfValue, decide_eq_true_eq] at hw
    cases f with
    | zero => omega
    | succ f =>
      rw [show encodeValue (.f64 bits) ++ rest = 0xcb :: (beBytes 8 bits ++ rest) from rfl]
      rw [deser, deserStep]
      norm_num
      rw [readBE_beBytes 8 bits (by norm_num at hw ⊢; omega) rest]
  | .str d, hw, f, hf, rest => by
    have h1 : 1 ≤ f := le_trans (depthV_pos (.str d)) hf
    simp only [wfValue, Bool.and_eq_true, decide_eq_true_eq] at hw
    cases f with
    | zero => omega
    | succ f =>
      simp only [encodeValue]
      exact deser_encStr f d hw.1 hw.2 rest
  | .bin d, hw, f, hf, rest => by
    have h1 : 1 ≤ f := le_trans (depthV_pos (.bin d)) hf
    simp only [wfValue, Bool.and_eq_true, decide_eq_true_eq] at hw
    cases f with
    | zero => omega
    | succ f =>
      simp only [encodeValue]
      exact deser_encBin f d hw.2 rest
  | .arr items, hw, f, hf, rest => by
    simp only [wfValue, Bool.and_eq_true, decide_eq_true_eq] at hw
    simp only [depthV] at hf
    cases f with
    | zero => omega
    | succ f =>
      have hfl : depthL items ≤ f := by omega
      have hrec := deserMany_encodeVList items hw.1 f hfl rest
      simp only [encodeValue]
      rw [List.append_assoc]
      unfold arrHeader
      split_ifs with h16 h2p16
      · rw [List.singleton_append]
        refine deser_fixarr_ok f _ (by omega) (by omega) _ items rest ?hl
        rw [show 0x90 + VList.length items - 0x90 = VList.length items from by omega]
        exact hrec
      · rw [List.cons_append, deser, deserStep]
        norm_num
        rw [readBE_beBytes 2 _ (by omega) _]
        simp [hrec]
      · rw [List.cons_append, deser, deserStep]
        norm_num
        rw [readBE_beBytes 4 _ (by omega) _]
        simp [hrec]
  | .map entries, hw, f, hf, rest => by
    simp only [wfValue, Bool.and_eq_true, decide_eq_true_eq] at hw
    simp only [depthV] at hf
    cases f with
    | zero => omega
    | succ f =>
      have hfl : depthP entries ≤ f := by omega
      have hrec := deserManyP_encodeVPairs entries hw.1 f hfl rest
      simp only [encodeValue]
      rw [List.append_assoc]
      unfold mapHeader
      split_ifs with h16 h2p16
      · rw [List.singleton_append]
        refine deser_fixmap_ok f _ (by omega) (by omega) _ entries rest ?hp
        rw [show 0x80 + VPairs.length entries - 0x80 = VPairs.length entries from by omega]
        exact hrec
      · rw [List.cons_append, deser, deserStep]
        norm_num
        rw [readBE_beBytes 2 _ (by omega) _]
        simp [hrec]
      · rw [List.cons_append, deser, deserStep]
        norm_num
        rw [readBE_beBytes 4 _ (by omega) _]
        simp [hrec]
  | .ext tag d, hw, f, hf, rest => by
    simp [wfValue] at hw

theorem deserMany_encodeVList : ∀ (l : VList), wfVList l = true → ∀ (f : Nat), depthL l ≤ f →
    ∀ (rest : List Nat),
      deserMany (deser f) l.length (encodeVList l ++ rest) = .ok l rest
  | .vnil, hw, f, hf, rest => by
    simp [VList.length, encodeVList, deserMany]
  | .vcons v tl, hw, f, hf, rest => by
    simp only [wfVList, Bool.and_eq_true] at hw
    simp only [depthL] at hf
    simp only [VList.length, encodeVList, List.append_assoc]
    rw [deserMany]
    rw [deser_encodeValue v hw.1 f (by omega) (encodeVList tl ++ rest)]
    simp [deserMany_encodeVList tl hw.2 f (by omega) rest]

theorem deserManyP_encodeVPairs : ∀ (p : VPairs), wfVPairs p = true → ∀ (f : Nat), depthP p ≤ f →
    ∀ (rest : List Nat),
      deserManyP (deser f) p.length (encodeVPairs p ++ rest) = .ok p rest
  | .pnil, hw, f, hf, rest => by
    simp [VPairs.length, encodeVPairs, deserManyP]
  | .pcons k v tl, hw, f, hf, rest => by
    simp only [wfVPairs, Bool.and_eq_true] at hw
    simp only [depthP] at hf
    simp only [VPairs.length, encodeVPairs, List.append_assoc]
    rw [deserManyP]
    rw [deser_encodeValue k hw.1.1 f (by omega) _]
    simp only []
    rw [deser_encodeValue v hw.1.2 f (by omega) _]
    simp [deserManyP_encodeVPairs tl hw.2 f (by omega) rest]

end

end Safesec

/-! ## Encoding length facts -/

namespace Safesec

theorem beBytes_length (k : Nat) : ∀ (n : Nat), (beBytes k n).length = k := by
  induction k with
  | zero => intro n; simp [beBytes]
  | succ k ih => intro n; simp [beBytes, ih]

theorem encInt_length_pos (n : Int) : 1 ≤ (encInt n).length := by
  unfold encInt
  split_ifs <;> simp [beBytes_length]

theorem strHeader_length_pos (l : Nat) : 1 ≤ (strHeader l).length := by
  unfold strHeader
  split_ifs <;> simp [beBytes_length]

theorem binHeader_length_pos (l : Nat) : 1 ≤ (binHeader l).length := by
  unfold binHeader
  split_ifs <;> simp [beBytes_length]

theorem arrHeader_length_pos (l : Nat) : 1 ≤ (arrHeader l).length := by
  unfold arrHeader
  split_ifs <;> simp [beBytes_length]

theorem mapHeader_length_pos (l : Nat) : 1 ≤ (mapHeader l).length := by
  unfold mapHeader
  split_ifs <;> simp [beBytes_length]

theorem extHeader_length_pos (l : Nat) : 1 ≤ (extHeader l).length := by
  unfold extHeader
  split_ifs <;> simp [beBytes_length]

theorem encodeValue_length_pos : ∀ (v : Value), 1 ≤ (encodeValue v).length
  | .nil => by simp [encodeValue]
  | .bool b => by cases b <;> simp [encodeValue]
  | .int n => by simp only [encodeValue]; exact encInt_length_pos n
  | .f32 bits => by simp [encodeValue]
  | .f64 bits => by simp [encodeValue]
  | .str d => by
    simp only [encodeValue, List.length_append]
    have := strHeader_length_pos d.length
    omega
  | .bin d => by
    simp only [encodeValue, List.length_append]
    have := binHeader_length_pos d.length
    omega
  | .arr items => by
    simp only [encodeValue, List.length_append]
    have := arrHeader_length_pos items.length
    omega
  | .map entries => by
    simp only [encodeValue, List.length_append]
    have := mapHeader_length_pos entries.length
    omega
  | .ext tag d => by
    simp only [encodeValue, List.length_append]
    have := extHeader_length_pos d.length
    simp
    omega

mutual

theorem depthV_le_encode : ∀ (v : Value), depthV v ≤ (encodeValue v).length
  | .nil => by simp [depthV, encodeValue]
  | .bool b => by cases b <;> simp [depthV, encodeValue]
  | .int n => by
    simp only [depthV]
    exact le_trans (by omega) (encodeValue_length_pos (.int n))
  | .f32 bits => by simp [depthV, encodeValue]
  | .f64 bits => by simp [depthV, encodeValue]
  | .str d => by
    simp only [depthV]
    exact le_trans (by omega) (encodeValue_length_pos (.str d))
  | .bin d => by
    simp only [depthV]
    exact le_trans (by omega) (encodeValue_length_pos (.bin d))
  | .arr items => by
    simp only [depthV, encodeValue, List.length_append]
    have h1 := depthL_le_encode items
    have h2 := arrHeader_length_pos items.length
    omega
  | .map entries => by
    simp only [depthV, encodeValue, List.length_append]
    have h1 := depthP_le_encode entries
    have h2 := mapHeader_length_pos entries.length
    omega
  | .ext tag d => by
    simp only [depthV]
    exact le_trans (by omega) (encodeValue_length_pos (.ext tag d))

theorem depthL_le_encode : ∀ (l : VList), depthL l ≤ (encodeVList l).length
  | .vnil => by simp [depthL, encodeVList]
  | .vcons v tl => by
    simp only [depthL, encodeVList, List.length_append]
    have h1 := depthV_le_encode v
    have h2 := depthL_le_encode tl
    omega

theorem depthP_le_encode : ∀ (p : VPairs), depthP p ≤ (encodeVPairs p).length
  | .pnil => by simp [depthP, encodeVPairs]
  | .pcons k v tl => by
    simp only [depthP, encodeVPairs, List.length_append]
    have h1 := depthV_le_encode k
    have h2 := depthV_le_encode v
    have h3 := depthP_le_encode tl
    omega

end

end Safesec

/-! ## Message-layer lemmas -/

namespace Safesec

theorem msgIdOf_lt (m : Value) (i : Nat) (h : msgIdOf m = some i) : i < 2 ^ 32 := by
  unfold msgIdOf at h
  repeat' (split at h; try symm at h)
  all_goals cases h
  all_goals omega

theorem respId (C : CodeConvert α) (id : Nat) (e : α) (res : Value) :
    msgIdOf (ResponseMessage.new C id e res) = some (id % 2 ^ 32) := by
  simp [msgIdOf, ResponseMessage.new, Value.asArr, VList.get?, Value.asU64]

theorem respEcho (C : CodeConvert α) (m : Value) (id : Nat) (e : α) (res : Value)
    (hm : msgIdOf m = some id) :
    msgIdOf (ResponseMessage.new C id e res) = msgIdOf m := by
  rw [respId, hm, Nat.mod_eq_of_lt (msgIdOf_lt m id hm)]

theorem authRunEchoesId (S : KeyFileStore σ) (db : σ) (m r : Value) (db2 : σ)
    (h : ProcessAuthRequest.run S db m = .ok (r, db2)) : msgIdOf r = msgIdOf m := by
  unfold ProcessAuthRequest.run reqKeyExists reqGetKeyfile reqCreateKeyfile
    reqChangeKeyfile reqDelKeyfile reqChangeKey reqReplaceKeyfile at h
  repeat' (split at h; try symm at h)
  all_goals cases h
  all_goals (simp only [AuthResponse.new]; apply respEcho; assumption)

theorem bootRunEchoesId (S : KeyFileStore σ) (db : σ) (m r : Value) (db2 : σ)
    (h : ProcessBootRequest.run S db m = .ok (r, db2)) : msgIdOf r = msgIdOf m := by
  unfold ProcessBootRequest.run bootReqKeyExists bootReqGetKeyfile at h
  repeat' (split at h; try symm at h)
  all_goals cases h
  all_goals (simp only [BootResponse.new]; apply respEcho; assumption)

end Safesec

/-! ## Derive-model lemmas -/

namespace Safesec

theorem assignNums_replicate (k : Nat) :
    ∀ (s : Nat), assignNums (List.replicate k none) s = List.range' s k := by
  induction k with
  | zero => intro s; rfl
  | succ k ih =>
    intro s
    simp only [List.replicate, assignNums, ih, List.range'_succ]

theorem findIdx_range (k : Nat) :
    ∀ (s n i : Nat), s ≤ n → n < s + k →
      List.findIdx? (fun d => d == n) (List.range' s k) i = some (i + (n - s)) := by
  induction k with
  | zero => intro s n i h1 h2; omega
  | succ k ih =>
    intro s n i h1 h2
    rw [List.range'_succ, List.findIdx?_cons]
    by_cases hs : s = n
    · subst hs
      simp only [beq_self_eq_true, if_true, Nat.sub_self, Nat.add_zero]
    · have hbeq : (s == n) = false := by simpa using hs
      simp only [hbeq, Bool.false_eq_true, if_false]
      rw [ih (s + 1) n (i + 1) (by omega) (by omega)]
      simp only [Option.some.injEq]
      omega

theorem genFromNumber_range (k : Nat) :
    ∀ (s n : Nat), s ≤ n → n < s + k →
      genFromNumber (List.range' s k) n = .ok (n - s) := by
  intro s n h1 h2
  unfold genFromNumber
  rw [findIdx_range k s n 0 h1 h2]
  simp

theorem genToNumber_range (k : Nat) :
    ∀ (s n : Nat), s ≤ n → n < s + k →
      genToNumber (List.range' s k) (n - s) = n := by
  induction k with
  | zero => intro s n h1 h2; omega
  | succ k ih =>
    intro s n h1 h2
    rw [List.range'_succ]
    by_cases hs : s = n
    · subst hs
      simp [genToNumber]
    · have hd : n - s = (n - (s + 1)) + 1 := by omega
      rw [hd]
      unfold genToNumber
      simp only [List.getD_cons_succ]
      have := ih (s + 1) n (by omega) (by omega)
      unfold genToNumber at this
      exact this

end Safesec

/-! ## The claims -/

namespace Safesec

/-- C1: the claim states that for every buffer holding a strict, non-empty
prefix `p` of the encoding of a single MessagePack value,
`MsgPackCodec::decode` returns `Ok(None)` and leaves the buffer exactly
equal to `p`. The code violates the buffer-preservation half (and, for
prefixes cut at a value boundary inside a container, even the `Ok(None)`
half): `buf.split_to(curpos)` runs before the error branch, and on an
`UnexpectedEof` the deserializer cursor has already consumed the available
bytes. This theorem evaluates the codec at the failing inputs: the 3-byte
prefix of `encode(Value::from("ANSWER"))` (the repository's own
`decode_incomplete_message` test value) yields `Ok(None)` with an *empty*
buffer rather than the 3 retained bytes, and the 2-byte prefix of
`encode(Value::Array[1, 2])` yields `Err` instead of `Ok(None)`. -/
theorem C1_decode_discards_partial_bytes :
    MsgPackCodec.decode ((MsgPackCodec.encode (.str [65, 78, 83, 87, 69, 82]) []).take 3)
      = .ok none [] ∧
    ((MsgPackCodec.encode (.str [65, 78, 83, 87, 69, 82]) []).take 3).length
      < (MsgPackCodec.encode (.str [65, 78, 83, 87, 69, 82]) []).length ∧
    (MsgPackCodec.encode (.str [65, 78, 83, 87, 69, 82]) []).take 3 ≠ [] ∧
    MsgPackCodec.decode
      ((MsgPackCodec.encode (.arr (.vcons (.int 1) (.vcons (.int 2) .vnil))) []).take 2)
      = .ioError :=
  ⟨rfl, by decide, by decide, rfl⟩

/-- C9: there is a `Message` accepted by `Message::from` on which the
request dispatchers panic instead of returning a protocol error or a
response: the Request-typed message `[0, 42, 7, []]` passes `Message::from`
(7 is a u8), but `ProcessAuthRequest::run` unwraps the `Err` that
`AuthRequest::from` returns for the unmapped method code 7 and panics;
likewise `ProcessBootRequest::run` on `[0, 42, 2, []]` (BootMessage has
codes 0 and 1 only). -/
theorem C9_dispatcher_panics_on_invalid_method_code :
    Message.from (.arr (.vcons (.int 0) (.vcons (.int 42)
        (.vcons (.int 7) (.vcons (.arr .vnil) .vnil)))))
      = .ok (.arr (.vcons (.int 0) (.vcons (.int 42)
        (.vcons (.int 7) (.vcons (.arr .vnil) .vnil))))) ∧
    ProcessAuthRequest.run listStore []
      (.arr (.vcons (.int 0) (.vcons (.int 42)
        (.vcons (.int 7) (.vcons (.arr .vnil) .vnil))))) = .panic ∧
    Message.from (.arr (.vcons (.int 0) (.vcons (.int 42)
        (.vcons (.int 2) (.vcons (.arr .vnil) .vnil)))))
      = .ok (.arr (.vcons (.int 0) (.vcons (.int 42)
        (.vcons (.int 2) (.vcons (.arr .vnil) .vnil))))) ∧
    ProcessBootRequest.run listStore []
      (.arr (.vcons (.int 0) (.vcons (.int 42)
        (.vcons (.int 2) (.vcons (.arr .vnil) .vnil))))) = .panic :=
  ⟨rfl, rfl, rfl, rfl⟩

/-- C10: every response the Boot and Auth request handlers produce echoes
the id of the request it answers: whenever `ProcessAuthRequest::run` or
`ProcessBootRequest::run` returns a response (success or error-code alike,
across all seven Auth and both Boot methods), the response's `message_id`
equals the request's. -/
theorem C10_responses_echo_request_id (σ : Type) (S : KeyFileStore σ) (db : σ)
    (m r : Value) (db2 : σ) :
    (ProcessAuthRequest.run S db m = .ok (r, db2) → msgIdOf r = msgIdOf m) ∧
    (ProcessBootRequest.run S db m = .ok (r, db2) → msgIdOf r = msgIdOf m) :=
  ⟨authRunEchoesId S db m r db2, bootRunEchoesId S db m r db2⟩

theorem C10_responses_echo_request_id_witness :
    msgIdOf (AuthResponse.new 42 .Nil (.bool true))
      = msgIdOf (RequestMessage.new authMessageCC 42 .KeyExists
          (.vcons (.bin [65, 78, 83, 87, 69, 82]) .vnil)) ∧
    msgIdOf (BootResponse.new 7 .Nil (.bool false))
      = msgIdOf (RequestMessage.new bootMessageCC 7 .KeyExists
          (.vcons (.bin [1]) .vnil)) :=
  ⟨(C10_responses_echo_request_id ListStore listStore [([65, 78, 83, 87, 69, 82], [52, 50])]
      (RequestMessage.new authMessageCC 42 .KeyExists
        (.vcons (.bin [65, 78, 83, 87, 69, 82]) .vnil))
      (AuthResponse.new 42 .Nil (.bool true))
      [([65, 78, 83, 87, 69, 82], [52, 50])]).1 rfl,
   (C10_responses_echo_request_id ListStore listStore []
      (RequestMessage.new bootMessageCC 7 .KeyExists (.vcons (.bin [1]) .vnil))
      (BootResponse.new 7 .Nil (.bool false)) []).2 rfl⟩

end Safesec

namespace Safesec

/-- C7 counterexample: the claim asserts that for *every* enum deriving
`CodeConvert` — explicitly including `BootNotice` and `AuthNotice`, whose
single variant `Done` carries the explicit discriminant 2 — and every `n`
below the number of variants, `from_number(n)` succeeds. For
`C = BootNotice` the number of variants is 1 and `n = 0` is in range, yet
the generated match has only the arm `2 => Ok(Done)`, so `from_number(0)`
is `Err(InvalidValue)` with description "0"; the same holds for
`AuthNotice` and for the generic derive model applied to the declaration
`[Done = 2]`. -/
theorem C7_counterexample :
    (0 : Nat) < 1 ∧
    BootNotice.fromNumber 0 = .error "0" ∧
    AuthNotice.fromNumber 0 = .error "0" ∧
    genFromNumber (assignNums [some 2] 0) 0 = .error "0" :=
  ⟨by decide, rfl, rfl, rfl⟩

/-- C7 amended: for every enum deriving `CodeConvert` whose variants carry
no explicit discriminants (so the derive numbers them contiguously from
the starting counter), `from_number(n)` succeeds for every `n` in range
and the round trip `from_number(n).to_number() == n` holds — stated
generically over the derive model and instantiated by every such enum of
the program (`MessageType` is hand-written with the same property) — while
for `BootNotice` and `AuthNotice` (explicit discriminant `Done = 2`) the
only accepted number is their assigned code 2, which round-trips to 2. -/
theorem C7_codeconvert_roundtrip :
    (∀ (k s n : Nat), s ≤ n → n < s + k →
      genFromNumber (assignNums (List.replicate k none) s) n = .ok (n - s) ∧
      genToNumber (assignNums (List.replicate k none) s) (n - s) = n) ∧
    (∀ n, n < 3 → ∃ c, MessageType.fromNumber n = some c ∧ MessageType.toNumber c = n) ∧
    (∀ n, n < 2 → ∃ c, SessionType.fromNumber n = .ok c ∧ SessionType.toNumber c = n) ∧
    (∀ n, n < 2 → ∃ c, BootMessage.fromNumber n = .ok c ∧ BootMessage.toNumber c = n) ∧
    (∀ n, n < 2 → ∃ c, BootError.fromNumber n = .ok c ∧ BootError.toNumber c = n) ∧
    (∀ n, n < 7 → ∃ c, AuthMessage.fromNumber n = .ok c ∧ AuthMessage.toNumber c = n) ∧
    (∀ n, n < 4 → ∃ c, AuthError.fromNumber n = .ok c ∧ AuthError.toNumber c = n) ∧
    (BootNotice.fromNumber 2 = .ok .Done ∧ BootNotice.toNumber .Done = 2) ∧
    (AuthNotice.fromNumber 2 = .ok .Done ∧ AuthNotice.toNumber .Done = 2) := by
  refine ⟨?_, ?_, ?_, ?_, ?_, ?_, ?_, ⟨rfl, rfl⟩, ⟨rfl, rfl⟩⟩
  · intro k s n h1 h2
    rw [assignNums_replicate]
    exact ⟨genFromNumber_range k s n h1 h2, genToNumber_range k s n h1 h2⟩
  · intro n hn
    interval_cases n <;> exact ⟨_, rfl, rfl⟩
  · intro n hn
    interval_cases n <;> exact ⟨_, rfl, rfl⟩
  · intro n hn
    interval_cases n <;> exact ⟨_, rfl, rfl⟩
  · intro n hn
    interval_cases n <;> exact ⟨_, rfl, rfl⟩
  · intro n hn
    interval_cases n <;> exact ⟨_, rfl, rfl⟩
  · intro n hn
    interval_cases n <;> exact ⟨_, rfl, rfl⟩

theorem C7_codeconvert_roundtrip_witness :
    genFromNumber (assignNums (List.replicate 7 none) 0) 3 = .ok 3 ∧
    genToNumber (assignNums (List.replicate 7 none) 0) 3 = 3 ∧
    (∃ c, AuthMessage.fromNumber 3 = .ok c ∧ AuthMessage.toNumber c = 3) := by
  have h1 := C7_codeconvert_roundtrip.1 7 0 3 (by decide) (by decide)
  have h2 := C7_codeconvert_roundtrip.2.2.2.2.2.1 3 (by decide)
  exact ⟨by simpa using h1.1, by simpa using h1.2, h2⟩

end Safesec

namespace Safesec

/-- C6: for a Boot `GetKeyFile` request with one binary argument `key`, the
handler mirrors the store lookup: a hit answers error `Nil` with the file
bytes; a `KeyNotFound` answers `KeyFileNotFound` with the key echoed (the
bytes carried by the store error, which the engine contract sets to the
looked-up key); any other engine error hits `unimplemented!()` — the
request panics the connection task and no response is produced. The store
state is untouched in all cases. -/
theorem C6_boot_get_keyfile (σ : Type) (S : KeyFileStore σ) (db : σ) (id : Nat)
    (key : List Nat) (hid : id < 2 ^ 32) :
    ProcessBootRequest.run S db
      (RequestMessage.new bootMessageCC id .GetKeyFile (.vcons (.bin key) .vnil)) =
      (match S.dbGet db key with
      | .ok f => .ok (BootResponse.new id .Nil (.bin f), db)
      | .error (.Key k) => .ok (BootResponse.new id .KeyFileNotFound (.bin k), db)
      | .error .Other => .panic) := by
  have h1 : ¬ (4294967295 : Nat) < id := by omega
  have h2 : id % 4294967296 = id := Nat.mod_eq_of_lt (by omega)
  simp [ProcessBootRequest.run, RequestMessage.from, RequestMessage.new, Value.asArr,
        Value.asU64, check_int, msgCodeOf, msgIdOf, msgArgsOf, VList.get?, VList.length,
        checkMessageBoot, bootReqGetKeyfile, Value.asSlice, bootMessageCC,
        BootMessage.fromNumber, BootMessage.toNumber, Int.toNat_natCast, h1, h2]

theorem C6_boot_get_keyfile_witness :
    (42 : Nat) < 2 ^ 32 ∧
    ProcessBootRequest.run listStore [([65, 78, 83, 87, 69, 82], [52, 50])]
      (RequestMessage.new bootMessageCC 42 .GetKeyFile (.vcons (.bin [52, 50]) .vnil)) =
      .ok (BootResponse.new 42 .KeyFileNotFound (.bin [52, 50]),
        [([65, 78, 83, 87, 69, 82], [52, 50])]) :=
  ⟨by decide,
   (C6_boot_get_keyfile ListStore listStore [([65, 78, 83, 87, 69, 82], [52, 50])]
      42 [52, 50] (by decide)).trans rfl⟩

/-- C2: for an Auth `ChangeKey` request with two binary arguments
`(old, new)`, whenever `new` already exists in the store the handler
aborts with a response carrying error `KeyFileExists` and result
`bytes(new)`, and the store is returned completely unchanged. The theorem
is quantified over *every* store implementation and over an arbitrary
`old` argument, so the existence check on `new` is settled before — and
independently of — any check on `old`, and no `get`/`delete`/`set`
operation contributes to the outcome. -/
theorem C2_change_key_new_exists (σ : Type) (S : KeyFileStore σ) (db : σ) (id : Nat)
    (oldkey newkey : List Nat) (hid : id < 2 ^ 32)
    (hex : S.dbExists db newkey = true) :
    ProcessAuthRequest.run S db
      (RequestMessage.new authMessageCC id .ChangeKey
        (.vcons (.bin oldkey) (.vcons (.bin newkey) .vnil))) =
      .ok (AuthResponse.new id .KeyFileExists (.bin newkey), db) := by
  have h1 : ¬ (4294967295 : Nat) < id := by omega
  have h2 : id % 4294967296 = id := Nat.mod_eq_of_lt (by omega)
  simp [ProcessAuthRequest.run, RequestMessage.from, RequestMessage.new, Value.asArr,
        Value.asU64, check_int, msgCodeOf, msgIdOf, msgArgsOf, VList.get?, VList.length,
        checkMessage, collectBins, reqChangeKey, Value.asSlice, authMessageCC,
        AuthMessage.fromNumber, AuthMessage.toNumber, Int.toNat_natCast, h1, h2, hex]

theorem C2_change_key_new_exists_witness :
    (7 : Nat) < 2 ^ 32 ∧
    listStore.dbExists [([65], [1]), ([66], [2])] [66] = true ∧
    ProcessAuthRequest.run listStore [([65], [1]), ([66], [2])]
      (RequestMessage.new authMessageCC 7 .ChangeKey
        (.vcons (.bin [65]) (.vcons (.bin [66]) .vnil))) =
      .ok (AuthResponse.new 7 .KeyFileExists (.bin [66]), [([65], [1]), ([66], [2])]) :=
  ⟨by decide, by decide,
   C2_change_key_new_exists ListStore listStore [([65], [1]), ([66], [2])]
      7 [65] [66] (by decide) (by decide)⟩

end Safesec

namespace Safesec

/-- C3 counterexample: the claim states that in state `ProcessAuth`,
stepping with a Request message yields a new `ProcessAuth` state carrying
a response. At the explicit input `Request KeyExists` with argument list
`[nil]` (the spec's own scenario 5), the step instead returns the protocol
error `InvalidRequest` — the request handler rejects the non-binary
argument and no response-carrying state is produced. -/
theorem C3_counterexample :
    ProcessAuthMessage.change listStore [([65, 78, 83, 87, 69, 82], [52, 50])]
      (RequestMessage.new authMessageCC 42 .KeyExists (.vcons .nil .vnil))
      = .protoErr .InvalidRequest :=
  rfl

/-- C3 amended: in state `ProcessAuth` (respectively `ProcessBoot`),
stepping with a Request message yields a new `ProcessAuth` (`ProcessBoot`)
state carrying the handler's response *when the handler answers it*, and
propagates the handler's protocol error (shutdown) when the handler
rejects the request's arguments; stepping with a Notification that parses
as the `Done` notice yields the terminal `AuthEnd` (`BootEnd`) state;
stepping with a Notification that fails to parse (for example an unknown
notice code) yields the `InvalidNotification` protocol error; stepping
with a Response message yields the `UnexpectedMessage` protocol error; and
no step reaches any other state. -/
theorem C3_session_transitions (σ : Type) (S : KeyFileStore σ) (db : σ) (m : Value) :
    (∀ r db2, messageTypeOf m = some .Request →
        ProcessAuthRequest.run S db m = .ok (r, db2) →
        ProcessAuthMessage.change S db m = .ok (.ProcessAuth, some r, db2)) ∧
    (∀ e, messageTypeOf m = some .Request →
        ProcessAuthRequest.run S db m = .protoErr e →
        ProcessAuthMessage.change S db m = .protoErr e) ∧
    (messageTypeOf m = some .Notification →
        NotificationMessage.from authNoticeCC m = .ok .Done →
        ProcessAuthMessage.change S db m = .ok (.AuthEnd, none, db)) ∧
    (∀ e, messageTypeOf m = some .Notification →
        NotificationMessage.from authNoticeCC m = .err e →
        ProcessAuthMessage.change S db m = .protoErr .InvalidNotification) ∧
    (messageTypeOf m = some .Response →
        ProcessAuthMessage.change S db m = .protoErr .UnexpectedMessage) ∧
    (∀ s o db2, ProcessAuthMessage.change S db m = .ok (s, o, db2) →
        (s = .ProcessAuth ∧ ∃ r, o = some r) ∨ (s = .AuthEnd ∧ o = none ∧ db2 = db)) ∧
    (∀ r db2, messageTypeOf m = some .Request →
        ProcessBootRequest.run S db m = .ok (r, db2) →
        ProcessBootMessage.change S db m = .ok (.ProcessBoot, some r, db2)) ∧
    (∀ e, messageTypeOf m = some .Request →
        ProcessBootRequest.run S db m = .protoErr e →
        ProcessBootMessage.change S db m = .protoErr e) ∧
    (messageTypeOf m = some .Notification →
        NotificationMessage.from bootNoticeCC m = .ok .Done →
        ProcessBootMessage.change S db m = .ok (.BootEnd, none, db)) ∧
    (∀ e, messageTypeOf m = some .Notification →
        NotificationMessage.from bootNoticeCC m = .err e →
        ProcessBootMessage.change S db m = .protoErr .InvalidNotification) ∧
    (messageTypeOf m = some .Response →
        ProcessBootMessage.change S db m = .protoErr .UnexpectedMessage) ∧
    (∀ s o db2, ProcessBootMessage.change S db m = .ok (s, o, db2) →
        (s = .ProcessBoot ∧ ∃ r, o = some r) ∨ (s = .BootEnd ∧ o = none ∧ db2 = db)) := by
  refine ⟨?_, ?_, ?_, ?_, ?_, ?_, ?_, ?_, ?_, ?_, ?_, ?_⟩
  · intro r db2 hmt hrun
    simp [ProcessAuthMessage.change, hmt, hrun]
  · intro e hmt hrun
    simp [ProcessAuthMessage.change, hmt, hrun]
  · intro hmt hfrom
    simp [ProcessAuthMessage.change, hmt, hfrom]
  · intro e hmt hfrom
    simp [ProcessAuthMessage.change, hmt, hfrom]
  · intro hmt
    simp [ProcessAuthMessage.change, hmt]
  · intro s o db2 h
    unfold ProcessAuthMessage.change at h
    repeat' (split at h; try symm at h)
    all_goals cases h
    · exact Or.inl ⟨rfl, _, rfl⟩
    · exact Or.inr ⟨rfl, rfl, rfl⟩
  · intro r db2 hmt hrun
    simp [ProcessBootMessage.change, hmt, hrun]
  · intro e hmt hrun
    simp [ProcessBootMessage.change, hmt, hrun]
  · intro hmt hfrom
    simp [ProcessBootMessage.change, hmt, hfrom]
  · intro e hmt hfrom
    simp [ProcessBootMessage.change, hmt, hfrom]
  · intro hmt
    simp [ProcessBootMessage.change, hmt]
  · intro s o db2 h
    unfold ProcessBootMessage.change at h
    repeat' (split at h; try symm at h)
    all_goals cases h
    · exact Or.inl ⟨rfl, _, rfl⟩
    · exact Or.inr ⟨rfl, rfl, rfl⟩

theorem C3_session_transitions_witness :
    ProcessAuthMessage.change listStore [([65, 78, 83, 87, 69, 82], [52, 50])]
      (RequestMessage.new authMessageCC 42 .KeyExists
        (.vcons (.bin [65, 78, 83, 87, 69, 82]) .vnil))
      = .ok (.ProcessAuth, some (AuthResponse.new 42 .Nil (.bool true)),
          [([65, 78, 83, 87, 69, 82], [52, 50])]) ∧
    ProcessAuthMessage.change listStore ([] : ListStore)
      (NotificationMessage.new authNoticeCC .Done .vnil)
      = .ok (.AuthEnd, none, ([] : ListStore)) ∧
    ProcessBootMessage.change listStore ([] : ListStore)
      (AuthResponse.new 1 .Nil .nil)
      = .protoErr .UnexpectedMessage :=
  ⟨(C3_session_transitions ListStore listStore [([65, 78, 83, 87, 69, 82], [52, 50])]
      (RequestMessage.new authMessageCC 42 .KeyExists
        (.vcons (.bin [65, 78, 83, 87, 69, 82]) .vnil))).1
      (AuthResponse.new 42 .Nil (.bool true)) [([65, 78, 83, 87, 69, 82], [52, 50])] rfl rfl,
   (C3_session_transitions ListStore listStore []
      (NotificationMessage.new authNoticeCC .Done .vnil)).2.2.1 rfl rfl,
   (C3_session_transitions ListStore listStore []
      (AuthResponse.new 1 .Nil .nil)).2.2.2.2.2.2.2.2.2.2.1 rfl⟩

end Safesec

namespace Safesec
/-- C4: `Message::from(v)` succeeds exactly when `v` is an array of length 3 or
4 whose first element is an unsigned integer ≤ 255, and otherwise fails with
the error of the first failing check in order: not an array (`InvalidMessage`,
"expected array but got <type>"), bad length (`InvalidArrayLength`,
"expected array length of either 3 or 4, got N"), bad first element
(`InvalidMessageType`, "expected u8 but got None" or
"expected value <= 255 but got value N"). -/
theorem C4_message_from (v : Value) :
    (v.asArr = none →
      Message.from v = .error ⟨.InvalidMessage, "expected array but got " ++ value_type v⟩) ∧
    (∀ items, v = .arr items → items.length ≠ 3 → items.length ≠ 4 →
      Message.from v = .error ⟨.InvalidArrayLength,
        "expected array length of either 3 or 4, got " ++ Nat.repr items.length⟩) ∧
    (∀ first tl, v = .arr (.vcons first tl) →
      ((VList.vcons first tl).length = 3 ∨ (VList.vcons first tl).length = 4) →
      (first.asU64 = none →
        Message.from v = .error ⟨.InvalidMessageType, "expected u8 but got None"⟩) ∧
      (∀ n, first.asU64 = some n → 255 < n →
        Message.from v = .error ⟨.InvalidMessageType,
          "expected value <= 255 but got value " ++ Nat.repr n⟩) ∧
      (∀ n, first.asU64 = some n → n ≤ 255 → Message.from v = .ok v)) := by
  have hr : Nat.repr 255 = "255" := rfl
  refine ⟨?_, ?_, ?_⟩
  · intro h
    cases v <;> simp_all [Message.from, Value.asArr, value_type]
  · intro items hv h3 h4
    subst hv
    simp [Message.from, Value.asArr, h3, h4]
  · intro first tl hv hlen
    subst hv
    refine ⟨?_, ?_, ?_⟩
    · intro h0
      simp [Message.from, Value.asArr, hlen, check_int, h0]
    · intro n h0 hgt
      have hn : n > 255 := hgt
      simp [Message.from, Value.asArr, hlen, check_int, h0, hn, hr]
    · intro n h0 hle
      have hn : ¬ n > 255 := by omega
      simp [Message.from, Value.asArr, hlen, check_int, h0, hn]

theorem C4_message_from_witness :
    Message.from (Value.str [97]) =
      .error ⟨.InvalidMessage, "expected array but got " ++ value_type (Value.str [97])⟩ ∧
    Message.from (Value.arr (.vcons (.int 300) (.vcons .nil (.vcons .nil .vnil)))) =
      .error ⟨.InvalidMessageType, "expected value <= 255 but got value " ++ Nat.repr 300⟩ ∧
    Message.from (Value.arr (.vcons (.int 0) (.vcons .nil (.vcons .nil .vnil)))) =
      .ok (Value.arr (.vcons (.int 0) (.vcons .nil (.vcons .nil .vnil)))) :=
  ⟨(C4_message_from (Value.str [97])).1 rfl,
   ((C4_message_from _).2.2 (.int 300) (.vcons .nil (.vcons .nil .vnil)) rfl
      (Or.inl rfl)).2.1 300 rfl (by decide),
   ((C4_message_from _).2.2 (.int 0) (.vcons .nil (.vcons .nil .vnil)) rfl
      (Or.inl rfl)).2.2 0 rfl (by decide)⟩
end Safesec

namespace Safesec
/-- C5: `RequestMessage<C>::from(msg)` evaluates its checks in the fixed order
array length = 4; array[0] equals the Request type code; array[1] fits in u32
(else `InvalidIDType`); array[2] fits in u8 and maps to a valid `C` (else
`InvalidRequest`); array[3] is an array (else `InvalidRequestArgs`) — returns
the error of the first failing check with its deterministic message, and
succeeds exactly when all checks pass. -/
theorem C5_request_from (α : Type) (C : CodeConvert α) (m : Value) (items : VList)
    (hv : m = .arr items) :
    (items.length ≠ 4 → RequestMessage.from C m
      = .err ⟨.InvalidArrayLength, "expected array length of 4, got " ++ Nat.repr items.length⟩) ∧
    (∀ a0 a1 a2 a3, items = .vcons a0 (.vcons a1 (.vcons a2 (.vcons a3 .vnil))) →
      (∀ t, a0.asU64 = some t → t % 256 ≠ 0 →
        RequestMessage.from C m = .err ⟨.InvalidMessageType,
          "expected 0 for message type (ie MessageType::Request), got " ++ Nat.repr (t % 256)⟩) ∧
      (∀ t, a0.asU64 = some t → t % 256 = 0 →
        (∀ e, check_int a1.asU64 (2 ^ 32 - 1) "u32" = .error e →
          RequestMessage.from C m = .err ⟨.InvalidIDType, e⟩) ∧
        (∀ i, check_int a1.asU64 (2 ^ 32 - 1) "u32" = .ok i →
          (∀ e, check_int a2.asU64 255 "u8" = .error e →
            RequestMessage.from C m = .err ⟨.InvalidRequest, e⟩) ∧
          (∀ cv, check_int a2.asU64 255 "u8" = .ok cv →
            (∀ e, C.fromNumber (cv % 256) = .error e →
              RequestMessage.from C m = .err ⟨.InvalidRequest, e⟩) ∧
            (∀ c, C.fromNumber (cv % 256) = .ok c →
              (a3.asArr = none → RequestMessage.from C m = .err ⟨.InvalidRequestArgs,
                "expected array for request arguments but got " ++ value_type a3⟩) ∧
              (∀ args, a3.asArr = some args → RequestMessage.from C m = .ok ())))))) := by
  subst hv
  refine ⟨?_, ?_⟩
  · intro hlen
    simp [RequestMessage.from, Value.asArr, hlen]
  · intro a0 a1 a2 a3 hitems
    subst hitems
    have hlen4 : ¬ (VList.vcons a0 (.vcons a1 (.vcons a2 (.vcons a3 .vnil)))).length ≠ 4 := by
      simp [VList.length]
    refine ⟨?_, ?_⟩
    · intro t h0 hne
      simp [RequestMessage.from, Value.asArr, VList.length, h0, hne]
    · intro t h0 heq
      refine ⟨?_, ?_⟩
      · intro e he
        have he2 : check_int a1.asU64 4294967295 "u32" = Except.error e := he
        simp [RequestMessage.from, Value.asArr, VList.length, h0, heq, he2]
      · intro i hi
        have hi2 : check_int a1.asU64 4294967295 "u32" = Except.ok i := hi
        refine ⟨?_, ?_⟩
        · intro e he
          simp [RequestMessage.from, Value.asArr, VList.length, h0, heq, hi2, he]
        · intro cv hcv
          refine ⟨?_, ?_⟩
          · intro e he
            simp [RequestMessage.from, Value.asArr, VList.length, h0, heq, hcv, hi2, he]
          · intro c hc
            refine ⟨?_, ?_⟩
            · intro h3
              have harr : ∀ l, (Value.arr l).asArr = some l := fun l => rfl
              simp [RequestMessage.from, VList.length, harr, h0, heq, hi2, hcv, hc, h3]
            · intro args h3
              have harr : ∀ l, (Value.arr l).asArr = some l := fun l => rfl
              simp [RequestMessage.from, VList.length, harr, h0, heq, hi2, hcv, hc, h3]

theorem C5_request_from_witness :
    RequestMessage.from authMessageCC
      (Value.arr (.vcons (.int 0) (.vcons (.int 7)
        (.vcons (.int 6) (.vcons (.arr .vnil) .vnil))))) = .ok () :=
  ((((((C5_request_from AuthMessage authMessageCC _ _ rfl).2
      (.int 0) (.int 7) (.int 6) (.arr .vnil) rfl).2
      0 rfl rfl).2 7 rfl).2 6 rfl).2
      AuthMessage.KeyExists rfl).2 .vnil rfl
end Safesec
